import Mathlib

/-!
Verification of the campaign dispatch / delivery reconciliation engine and the
segment targeting engine of the cnsssaas backend.

The definitions below are a shallow embedding of the JavaScript source:
- delivery status reconciliation (`handleStatusUpdate` in the webhook routes),
- the criteria compiler (`buildRuleCondition` / `buildWhereClause` in the
  segment evaluator service) and its evaluation semantics over contacts,
- campaign launch / direct send / cancel / scheduler (`campaign.js`, `server.js`),
- click tracking (the redirect route in `server.js`),
- segment add-contacts static conversion (segments routes).

Database writes are modelled as explicit state transformations; code paths that
throw before any write return the input state unchanged, mirroring the fact
that the corresponding handler performs no write on those paths.
-/

/-- The Prisma `MessageStatus` enum. -/
inductive MessageStatus where
  | PENDING
  | QUEUED
  | SENT
  | DELIVERED
  | READ
  | FAILED
deriving DecidableEq, Repr

/-- The four WhatsApp webhook callback statuses handled by `statusMap` in
`handleStatusUpdate` (other strings are dropped before reaching the update). -/
inductive WaStatus where
  | sent
  | delivered
  | read
  | failed
deriving DecidableEq, Repr

/-- `statusOrder` from `handleStatusUpdate`:
PENDING 0, QUEUED 1, SENT 2, DELIVERED 3, READ 4, FAILED 5. -/
def statusOrder : MessageStatus → Nat
  | .PENDING => 0
  | .QUEUED => 1
  | .SENT => 2
  | .DELIVERED => 3
  | .READ => 4
  | .FAILED => 5

/-- `statusMap` from `handleStatusUpdate`: webhook status to DB status. -/
def statusMap : WaStatus → MessageStatus
  | .sent => .SENT
  | .delivered => .DELIVERED
  | .read => .READ
  | .failed => .FAILED

/-- Status projection of `handleStatusUpdate`: the incoming status is skipped
when `statusOrder dbStatus <= statusOrder current && dbStatus != FAILED`,
otherwise it is applied. -/
def applyStatusUpdate (current : MessageStatus) (incoming : WaStatus) : MessageStatus :=
  let dbStatus := statusMap incoming
  if statusOrder dbStatus ≤ statusOrder current ∧ dbStatus ≠ .FAILED then current
  else dbStatus

/-- Maximum of two message statuses in the `statusOrder` ranking. -/
def statusMax (a b : MessageStatus) : MessageStatus :=
  if statusOrder b ≤ statusOrder a then a else b

/-- Closed form for a whole callback sequence applied from initial status `m0`:
FAILED once a FAILED callback arrived (or the message already was FAILED),
otherwise the rank-maximum of `m0` and all mapped callback statuses. -/
def finalStatus (cbs : List WaStatus) (m0 : MessageStatus) : MessageStatus :=
  if WaStatus.failed ∈ cbs ∨ m0 = .FAILED then .FAILED
  else cbs.foldl (fun m c => statusMax m (statusMap c)) m0

structure MessageRec where
  status : MessageStatus
  deliveredAt : Option Nat
  readAt : Option Nat
  failedAt : Option Nat
  error : Option String
deriving DecidableEq, Repr

structure CampaignCounters where
  sent : Nat
  delivered : Nat
  read : Nat
  clicked : Nat
  failed : Nat
deriving DecidableEq, Repr

/-- State touched by the webhook reconciler: the matched message row and the
owning campaign's aggregate counters. -/
structure ReconState where
  msg : MessageRec
  camp : CampaignCounters
deriving DecidableEq, Repr

/-- Full `handleStatusUpdate` body (webhook routes), after the message row has
been found: skip when the incoming rank does not exceed the current rank and
the incoming status is not FAILED; otherwise write the new status plus the
status-specific timestamp and error detail, and increment the matching
campaign counter by one. -/
def handleStatusUpdate (s : ReconState) (incoming : WaStatus) (now : Nat)
    (errText : String) : ReconState :=
  let dbStatus := statusMap incoming
  if statusOrder dbStatus ≤ statusOrder s.msg.status ∧ dbStatus ≠ .FAILED then s
  else
    { msg :=
        { status := dbStatus
          deliveredAt := if dbStatus = .DELIVERED then some now else s.msg.deliveredAt
          readAt := if dbStatus = .READ then some now else s.msg.readAt
          failedAt := if dbStatus = .FAILED then some now else s.msg.failedAt
          error := if dbStatus = .FAILED then some errText else s.msg.error }
      camp :=
        { sent := if dbStatus = .SENT then s.camp.sent + 1 else s.camp.sent
          delivered := if dbStatus = .DELIVERED then s.camp.delivered + 1 else s.camp.delivered
          read := if dbStatus = .READ then s.camp.read + 1 else s.camp.read
          clicked := s.camp.clicked
          failed := if dbStatus = .FAILED then s.camp.failed + 1 else s.camp.failed } }

/-- Whether `handleStatusUpdate` accepts (applies) the incoming status. -/
def acceptsUpdate (current : MessageStatus) (incoming : WaStatus) : Bool :=
  decide (¬(statusOrder (statusMap incoming) ≤ statusOrder current ∧ statusMap incoming ≠ .FAILED))

/-- Per-batch campaign stats update of `processDirectSend`: the campaign row is
overwritten with values recomputed by aggregating the campaign's message rows
(counts of SENT and FAILED; `delivered` is set to the SENT count and `sent` to
SENT + FAILED), not by relative increments. -/
def directSendStatsUpdate (msgStatuses : List MessageStatus)
    (camp : CampaignCounters) : CampaignCounters :=
  let sent := (msgStatuses.filter (fun st => st = .SENT)).length
  let failed := (msgStatuses.filter (fun st => st = .FAILED)).length
  let delivered := sent
  { camp with sent := sent + failed, delivered := delivered, failed := failed }

/-- Character-wise lower casing (ASCII-adequate model of `toLowerCase`). -/
def lowerString (s : String) : String := String.mk (s.data.map Char.toLower)

/-- Character-wise upper casing (ASCII-adequate model of `toUpperCase`). -/
def upperString (s : String) : String := String.mk (s.data.map Char.toUpper)

/-- Scalar JSON values appearing in criteria rules and contact fields. -/
inductive JScalar where
  | str (s : String)
  | num (n : Int)
  | bool (b : Bool)
  | null
deriving DecidableEq, Repr

/-- A criteria rule value: a scalar or an array of scalars. -/
inductive JVal where
  | scalar (v : JScalar)
  | arr (vs : List JScalar)
deriving DecidableEq, Repr

/-- `Array.isArray(value) ? value : [value]` — the scalar-to-singleton coercion
used by the `in` and `nin` cases of `buildRuleCondition`. -/
def JVal.asArray : JVal → List JScalar
  | .scalar v => [v]
  | .arr vs => vs

/-- One `criteria` rule: `{ field, op, value }`. -/
structure Rule where
  field : String
  op : String
  value : JVal
deriving DecidableEq, Repr

/-- A criteria tree: `{ operator, rules, groups }` with recursive groups. -/
inductive Criteria where
  | mk (operator : String) (rules : List Rule) (groups : List Criteria)

def Criteria.operator : Criteria → String
  | .mk o _ _ => o

def Criteria.rules : Criteria → List Rule
  | .mk _ rs _ => rs

def Criteria.groups : Criteria → List Criteria
  | .mk _ _ gs => gs

/-- `ALLOWED_FIELDS` from the segment evaluator service. -/
def ALLOWED_FIELDS : List String :=
  ["category", "city", "country", "ageRange", "gender", "language",
   "accountType", "engagementScore", "status", "tags", "optedIn",
   "registrationDate", "lastActivity", "lastCampaignInteraction", "createdAt"]

/-- The operator cases of the `switch` in `buildRuleCondition`. -/
def ruleOps : List String :=
  ["eq", "neq", "gt", "gte", "lt", "lte", "in", "nin", "contains", "has",
   "isNull", "isNotNull"]

/-- A single-field Prisma condition produced by `buildRuleCondition`. -/
inductive FieldTest where
  | eqv (v : JVal)
  | notv (v : JVal)
  | gtv (v : JVal)
  | gtev (v : JVal)
  | ltv (v : JVal)
  | ltev (v : JVal)
  | inv (vs : List JScalar)
  | ninv (vs : List JScalar)
  | containsv (v : JVal)
  | hasv (v : JVal)
deriving DecidableEq, Repr

/-- A Prisma where clause as produced by `buildWhereClause`: a field condition,
the empty clause, or an AND/OR combination. -/
inductive Cond where
  | test (fieldName : String) (t : FieldTest)
  | empty
  | andC (cs : List Cond)
  | orC (cs : List Cond)

/-- `buildRuleCondition`: reject fields outside `ALLOWED_FIELDS`, then map the
operator to a Prisma condition, rejecting unknown operators. `isNull` maps to
an equality with null and `isNotNull` to its negation, as in the source. -/
def buildRuleCondition (r : Rule) : Except String Cond :=
  if !(ALLOWED_FIELDS.contains r.field) then
    .error ("Champ non autorisé: " ++ r.field)
  else
    match r.op with
    | "eq" => .ok (.test r.field (.eqv r.value))
    | "neq" => .ok (.test r.field (.notv r.value))
    | "gt" => .ok (.test r.field (.gtv r.value))
    | "gte" => .ok (.test r.field (.gtev r.value))
    | "lt" => .ok (.test r.field (.ltv r.value))
    | "lte" => .ok (.test r.field (.ltev r.value))
    | "in" => .ok (.test r.field (.inv r.value.asArray))
    | "nin" => .ok (.test r.field (.ninv r.value.asArray))
    | "contains" => .ok (.test r.field (.containsv r.value))
    | "has" => .ok (.test r.field (.hasv r.value))
    | "isNull" => .ok (.test r.field (.eqv (.scalar .null)))
    | "isNotNull" => .ok (.test r.field (.notv (.scalar .null)))
    | other => .error ("Opérateur non supporté: " ++ other)

/-- Compile the rule list of one tree level, failing on the first bad rule. -/
def buildRules : List Rule → Except String (List Cond)
  | [] => .ok []
  | r :: rs =>
    match buildRuleCondition r with
    | .error e => .error e
    | .ok c =>
      match buildRules rs with
      | .error e => .error e
      | .ok cs => .ok (c :: cs)

mutual

/-- `buildWhereClause`: compile rules, then nested groups, then combine with
this level's operator (default AND); zero conditions give the empty clause and
a single condition is returned unwrapped, as in the source. -/
def buildWhereClause : Criteria → Except String Cond
  | .mk oper rules groups =>
    match buildRules rules with
    | .error e => .error e
    | .ok rcs =>
      match buildGroups groups with
      | .error e => .error e
      | .ok gcs =>
        match rcs ++ gcs with
        | [] => .ok .empty
        | [c] => .ok c
        | conditions =>
          .ok (if upperString oper = "OR" then .orC conditions else .andC conditions)

def buildGroups : List Criteria → Except String (List Cond)
  | [] => .ok []
  | g :: gs =>
    match buildWhereClause g with
    | .error e => .error e
    | .ok c =>
      match buildGroups gs with
      | .error e => .error e
      | .ok cs => .ok (c :: cs)

end

/-- A rule is accepted by `buildRuleCondition` exactly when its field is in
`ALLOWED_FIELDS` and its operator is one of the `switch` cases. -/
def Rule.isValidRule (r : Rule) : Bool :=
  ALLOWED_FIELDS.contains r.field && ruleOps.contains r.op

mutual

/-- Whether the tree contains, at any depth, a rule with a disallowed field or
an unsupported operator. -/
def Criteria.hasBadRule : Criteria → Bool
  | .mk _ rules groups =>
    rules.any (fun r => !r.isValidRule) || hasBadRuleList groups

def hasBadRuleList : List Criteria → Bool
  | [] => false
  | g :: gs => g.hasBadRule || hasBadRuleList gs

end

/-- A contact row, with the columns reachable from `ALLOWED_FIELDS`. -/
structure Contact where
  id : String
  phone : String
  category : String
  city : Option String
  country : Option String
  ageRange : Option String
  gender : Option String
  language : Option String
  accountType : Option String
  engagementScore : Int
  status : String
  tags : List String
  optedIn : Bool
  registrationDate : Option Int
  lastActivity : Option Int
  lastCampaignInteraction : Option Int
  createdAt : Int
deriving DecidableEq, Repr

def optStr : Option String → JVal
  | some s => .scalar (.str s)
  | none => .scalar .null

def optNum : Option Int → JVal
  | some n => .scalar (.num n)
  | none => .scalar .null

/-- The column value a criteria field name denotes on a contact row. -/
def getField (c : Contact) : String → JVal
  | "category" => .scalar (.str c.category)
  | "city" => optStr c.city
  | "country" => optStr c.country
  | "ageRange" => optStr c.ageRange
  | "gender" => optStr c.gender
  | "language" => optStr c.language
  | "accountType" => optStr c.accountType
  | "engagementScore" => .scalar (.num c.engagementScore)
  | "status" => .scalar (.str c.status)
  | "tags" => .arr (c.tags.map JScalar.str)
  | "optedIn" => .scalar (.bool c.optedIn)
  | "registrationDate" => optNum c.registrationDate
  | "lastActivity" => optNum c.lastActivity
  | "lastCampaignInteraction" => optNum c.lastCampaignInteraction
  | "createdAt" => .scalar (.num c.createdAt)
  | _ => .scalar .null

/-- Strict scalar order used by the range operators (numbers and strings;
comparisons involving null or mixed types do not match, as in SQL). -/
def JScalar.ltScalar : JScalar → JScalar → Bool
  | .num a, .num b => decide (a < b)
  | .str a, .str b => decide (a < b)
  | _, _ => false

def JScalar.leScalar (a b : JScalar) : Bool :=
  JScalar.ltScalar a b || decide (a = b)

/-- Case-insensitive substring check (`contains` with `mode: 'insensitive'`). -/
def strContainsCI (hay needle : String) : Bool :=
  decide (List.IsInfix (lowerString needle).data (lowerString hay).data)

/-- Semantics of a single-field Prisma condition on a field value. -/
def evalFieldTest (t : FieldTest) (v : JVal) : Bool :=
  match t with
  | .eqv w => decide (v = w)
  | .notv w => decide (v ≠ w)
  | .gtv w =>
    match v, w with
    | .scalar a, .scalar b => JScalar.ltScalar b a
    | _, _ => false
  | .gtev w =>
    match v, w with
    | .scalar a, .scalar b => JScalar.leScalar b a
    | _, _ => false
  | .ltv w =>
    match v, w with
    | .scalar a, .scalar b => JScalar.ltScalar a b
    | _, _ => false
  | .ltev w =>
    match v, w with
    | .scalar a, .scalar b => JScalar.leScalar a b
    | _, _ => false
  | .inv ws =>
    match v with
    | .scalar a => decide (a ∈ ws)
    | .arr _ => false
  | .ninv ws =>
    match v with
    | .scalar a => decide (a ∉ ws)
    | .arr _ => false
  | .containsv w =>
    match v, w with
    | .scalar (.str hay), .scalar (.str needle) => strContainsCI hay needle
    | _, _ => false
  | .hasv w =>
    match v, w with
    | .arr vs, .scalar sc => decide (sc ∈ vs)
    | _, _ => false

mutual

/-- Semantics of a compiled where clause on a contact row. -/
def Cond.holds : Cond → Contact → Bool
  | .test fieldName t, c => evalFieldTest t (getField c fieldName)
  | .empty, _ => true
  | .andC cs, c => Cond.holdsAll cs c
  | .orC cs, c => Cond.holdsAny cs c

def Cond.holdsAll : List Cond → Contact → Bool
  | [], _ => true
  | x :: xs, c => Cond.holds x c && Cond.holdsAll xs c

def Cond.holdsAny : List Cond → Contact → Bool
  | [], _ => false
  | x :: xs, c => Cond.holds x c || Cond.holdsAny xs c

end

/-- The fixed base filter `{ status: 'ACTIVE', optedIn: true }` that
`evaluateCount` and `evaluateContacts` AND onto every compiled criteria. -/
def activeOptedCond : Cond :=
  Cond.andC [Cond.test "status" (.eqv (.scalar (.str "ACTIVE"))),
             Cond.test "optedIn" (.eqv (.scalar (.bool true)))]

/-- `evaluateContacts`: compile the criteria, then select the contacts matching
`AND [ { status: ACTIVE, optedIn: true }, criteriaWhere ]`. -/
def evaluateContacts (contacts : List Contact) (criteria : Criteria) :
    Except String (List Contact) :=
  match buildWhereClause criteria with
  | .error e => .error e
  | .ok criteriaWhere =>
    .ok (contacts.filter (fun c => Cond.holds (Cond.andC [activeOptedCond, criteriaWhere]) c))

/-- `evaluateCount`: same where clause, returning the matching row count. -/
def evaluateCount (contacts : List Contact) (criteria : Criteria) :
    Except String Nat :=
  (evaluateContacts contacts criteria).map List.length

structure Template where
  id : String
  name : String
  language : Option String
  content : String
deriving DecidableEq, Repr

/-- A campaign row as fetched by `launchCampaign` (the template relation is
included in the fetch and carried inline here). -/
structure Campaign where
  id : String
  name : String
  status : String
  sent : Nat
  delivered : Nat
  read : Nat
  clicked : Nat
  failed : Nat
  template : Template
  segmentId : Option String
  inlineCriteria : Option Criteria
  legacySegment : Option String
  scheduledAt : Option Nat
  startedAt : Option Nat
  completedAt : Option Nat

structure ClickEntry where
  index : Nat
  clickedAt : Nat
deriving DecidableEq, Repr

/-- A message row. `createMany` at launch populates only campaign, contact,
type and status; all other columns keep their defaults (null). Message content
rendering is orthogonal to the verified properties and not modelled. -/
structure MessageRow where
  campaignId : String
  contactId : String
  type : String
  status : MessageStatus
  externalId : Option String
  sentAt : Option Nat
  errorMsg : Option String
  trackingId : Option String
  clickedAt : Option Nat
  clickedButtons : List ClickEntry
deriving DecidableEq, Repr

structure SegmentRow where
  id : String
  name : String
  type : String
  criteria : Criteria
  contactCount : Nat
  lastEvaluatedAt : Option Nat

/-- The relational state the campaign and segment handlers read and write. -/
structure DB where
  campaigns : List Campaign
  contacts : List Contact
  segments : List SegmentRow
  messages : List MessageRow

/-- Observable actions of a launch-and-dispatch run, in execution order. -/
inductive LaunchEvent where
  | targetResolve (n : Nat)
  | createMessages (rows : List MessageRow)
  | campaignUpdate (cid : String) (newStatus : String)
  | gatewaySend (phone : String) (success : Bool)
  | messageUpdate (campId : String) (contactId : String) (st : MessageStatus)
  | statsWrite (cid : String) (sent : Nat) (delivered : Nat) (failed : Nat)
deriving DecidableEq, Repr

/-- Outcome of one gateway template-send call. -/
structure SendResult where
  success : Bool
  messageId : Option String
  errorMsg : Option String

def updateCampaignRow (db : DB) (cid : String) (f : Campaign → Campaign) : DB :=
  { db with campaigns := db.campaigns.map (fun c => if c.id = cid then f c else c) }

/-- `resolveTargetContacts`: segment reference first, then inline criteria,
then the legacy category fallback restricted to active, opted-in contacts. -/
def resolveTargetContacts (db : DB) (campaign : Campaign) :
    Except String (List Contact) :=
  match campaign.segmentId with
  | some sid =>
    match db.segments.find? (fun sg => sg.id = sid) with
    | none => .error "Segment non trouvé"
    | some segment => evaluateContacts db.contacts segment.criteria
  | none =>
    match campaign.inlineCriteria with
    | some criteria => evaluateContacts db.contacts criteria
    | none =>
      match campaign.legacySegment with
      | some ls =>
        if ls ≠ "ALL" then
          .ok (db.contacts.filter (fun c =>
            c.status = "ACTIVE" ∧ c.optedIn = true ∧ c.category = ls))
        else
          .ok (db.contacts.filter (fun c => c.status = "ACTIVE" ∧ c.optedIn = true))
      | none =>
        .ok (db.contacts.filter (fun c => c.status = "ACTIVE" ∧ c.optedIn = true))

/-- The row shape inserted by `prisma.message.createMany` at launch. -/
def pendingRow (campId contactId : String) : MessageRow :=
  { campaignId := campId, contactId := contactId, type := "TEMPLATE",
    status := .PENDING, externalId := none, sentAt := none, errorMsg := none,
    trackingId := none, clickedAt := none, clickedButtons := [] }

/-- `launchCampaign` up to and including the transition to RUNNING: guards
(campaign missing, already RUNNING, empty target), bulk message insert, then
the status update. Paths that throw perform no write and leave the state as
received. -/
def launchCampaignCore (db : DB) (cid : String) (now : Nat) :
    DB × Except String (Campaign × List Contact) × List LaunchEvent :=
  match db.campaigns.find? (fun c => c.id = cid) with
  | none => (db, .error "Campagne non trouvée", [])
  | some campaign =>
    if campaign.status = "RUNNING" then
      (db, .error "La campagne est déjà en cours", [])
    else
      match resolveTargetContacts db campaign with
      | .error e => (db, .error e, [])
      | .ok contacts =>
        if contacts.length = 0 then
          (db, .error "Aucun contact trouvé pour ce segment", [.targetResolve 0])
        else
          let rows := contacts.map (fun ct => pendingRow campaign.id ct.id)
          let db1 : DB := { db with messages := db.messages ++ rows }
          let db2 := updateCampaignRow db1 cid
            (fun c => { c with status := "RUNNING", startedAt := some now })
          (db2, .ok (campaign, contacts),
           [.targetResolve contacts.length, .createMessages rows,
            .campaignUpdate cid "RUNNING"])

/-- Fixed-size batching (the `for i += batchSize` slicing loop). -/
def chunkList (n : Nat) (l : List α) : List (List α) :=
  if he : l.isEmpty then []
  else if hn : n = 0 then [l]
  else l.take n :: chunkList n (l.drop n)
termination_by l.length
decreasing_by
  simp only [List.length_drop]
  have hl : 0 < l.length := by
    cases l with
    | nil => simp at he
    | cons a t => exact Nat.succ_pos _
  exact Nat.sub_lt hl (Nat.pos_of_ne_zero hn)

/-- One per-contact step of the direct send loop: gateway call, then
`updateMany` on the message rows of this campaign and contact. -/
def sendContact (db : DB) (camp : Campaign) (ct : Contact) (res : SendResult)
    (now : Nat) : DB :=
  let newStatus := if res.success then MessageStatus.SENT else MessageStatus.FAILED
  { db with messages := db.messages.map (fun m =>
      if m.campaignId = camp.id ∧ m.contactId = ct.id then
        { m with status := newStatus,
                 externalId := res.messageId,
                 sentAt := if res.success then some now else none,
                 errorMsg := res.errorMsg }
      else m) }

def sendStep (camp : Campaign) (oracle : Contact → SendResult) (now : Nat)
    (acc : DB × List LaunchEvent) (ct : Contact) : DB × List LaunchEvent :=
  let res := oracle ct
  (sendContact acc.1 camp ct res now,
   acc.2 ++ [.gatewaySend ct.phone res.success,
             .messageUpdate camp.id ct.id
               (if res.success then .SENT else .FAILED)])

def sendBatch (db : DB) (camp : Campaign) (batch : List Contact)
    (oracle : Contact → SendResult) (now : Nat) : DB × List LaunchEvent :=
  batch.foldl (sendStep camp oracle now) (db, [])

def campaignMessages (db : DB) (campId : String) : List MessageRow :=
  db.messages.filter (fun m => m.campaignId = campId)

/-- The per-batch aggregate stats write of `processDirectSend`: counters are
recomputed from the campaign's message rows and written as absolute values
(`sent := SENT + FAILED`, `delivered := SENT`, `failed := FAILED`). -/
def batchStatsUpdate (db : DB) (campId : String) : DB × LaunchEvent :=
  let sts := (campaignMessages db campId).map (fun m => m.status)
  let sent := (sts.filter (fun st => st = MessageStatus.SENT)).length
  let failed := (sts.filter (fun st => st = MessageStatus.FAILED)).length
  let delivered := sent
  (updateCampaignRow db campId (fun c =>
     { c with sent := sent + failed, delivered := delivered, failed := failed }),
   .statsWrite campId (sent + failed) delivered failed)

/-- One iteration of the outer batch loop of `processDirectSend`: send each
contact of the batch and record the outcome, then rewrite the campaign
aggregates. -/
def batchStep (camp : Campaign) (oracle : Contact → SendResult) (now : Nat)
    (acc : DB × List LaunchEvent) (batch : List Contact) : DB × List LaunchEvent :=
  let step := sendBatch acc.1 camp batch oracle now
  let stats := batchStatsUpdate step.1 camp.id
  (stats.1, acc.2 ++ step.2 ++ [stats.2])

/-- `processDirectSend`: run every batch, then promote the campaign to
COMPLETED once every one of its message rows is in a processed status. -/
def processDirectSend (db : DB) (camp : Campaign) (batches : List (List Contact))
    (oracle : Contact → SendResult) (now : Nat) : DB × List LaunchEvent :=
  let afterBatches := batches.foldl (batchStep camp oracle now) (db, [])
  let db1 := afterBatches.1
  let total := (campaignMessages db1 camp.id).length
  let processed := ((campaignMessages db1 camp.id).filter (fun m =>
      m.status = MessageStatus.SENT ∨ m.status = MessageStatus.DELIVERED ∨
      m.status = MessageStatus.READ ∨ m.status = MessageStatus.FAILED)).length
  if total ≤ processed then
    (updateCampaignRow db1 camp.id (fun c =>
       { c with status := "COMPLETED", completedAt := some now }),
     afterBatches.2 ++ [.campaignUpdate camp.id "COMPLETED"])
  else
    afterBatches

/-- Launch followed by the (serverless-mode) direct send it triggers. -/
def launchAndSend (db : DB) (cid : String) (now : Nat)
    (oracle : Contact → SendResult) (batchSize : Nat) :
    DB × Except String Nat × List LaunchEvent :=
  match launchCampaignCore db cid now with
  | (db1, .error e, evs) => (db1, .error e, evs)
  | (db1, .ok (camp, contacts), evs) =>
    let batches := chunkList batchSize contacts
    let step := processDirectSend db1 camp batches oracle now
    (step.1, .ok contacts.length, evs ++ step.2)

/-- `cancelCampaign`: not-found and COMPLETED are rejected without a write,
otherwise the campaign is set to PAUSED. -/
def cancelCampaign (db : DB) (cid : String) : DB × Except String Unit :=
  match db.campaigns.find? (fun c => c.id = cid) with
  | none => (db, .error "Campagne non trouvée")
  | some campaign =>
    if campaign.status = "COMPLETED" then
      (db, .error "Impossible d\x27annuler une campagne terminée")
    else
      (updateCampaignRow db cid (fun c => { c with status := "PAUSED" }), .ok ())

/-- One tick of the scheduled-campaign interval in `server.js`: select the
campaigns with status SCHEDULED whose `scheduledAt` has passed, then launch
each in turn (launch errors are logged and swallowed). -/
def schedStep (now : Nat) (oracle : Contact → SendResult) (batchSize : Nat)
    (d : DB) (c : Campaign) : DB :=
  (launchAndSend d c.id now oracle batchSize).1

def schedulerTick (db : DB) (now : Nat) (oracle : Contact → SendResult)
    (batchSize : Nat) : DB :=
  let scheduledCampaigns := db.campaigns.filter (fun c =>
    decide (c.status = "SCHEDULED") &&
      (match c.scheduledAt with
       | some t => decide (t ≤ now)
       | none => false))
  scheduledCampaigns.foldl (schedStep now oracle batchSize) db

/-- The state read and written by the click-redirect route for one message:
its per-button click log, its first-click timestamp, its owning campaign (if
any) and that campaign's `clicked` counter. -/
structure ClickState where
  clickedButtons : List ClickEntry
  clickedAt : Option Nat
  campaignId : Option String
  campClicked : Nat
deriving DecidableEq, Repr

/-- The `GET /t/:trackingId/:buttonIndex?` recording step, after the message
was found: append to the click log unless this button was already clicked, set
the first-click timestamp only if unset, and increment the campaign counter
only when the fetched message had no first click yet. -/
def trackClick (s : ClickState) (buttonIndex : Nat) (now : Nat) : ClickState :=
  let alreadyClicked := s.clickedButtons.any (fun c => decide (c.index = buttonIndex))
  if alreadyClicked then s
  else
    { s with
      clickedButtons := s.clickedButtons ++ [{ index := buttonIndex, clickedAt := now }],
      clickedAt := if s.clickedAt = none then some now else s.clickedAt,
      campClicked :=
        if s.campaignId ≠ none ∧ s.clickedAt = none then s.campClicked + 1
        else s.campClicked }

/-- Collapse each maximal whitespace run to one underscore (the
`replace(/\s+/g, '_')` name normalisation); the flag records whether the
previous character belonged to a whitespace run. -/
def collapseWsAux : List Char → Bool → List Char
  | [], _ => []
  | ch :: rest, inRun =>
    if ch.isWhitespace then
      if inRun then collapseWsAux rest true
      else '_' :: collapseWsAux rest true
    else ch :: collapseWsAux rest false

def collapseWs (s : String) : String := String.mk (collapseWsAux s.data false)

/-- The synthetic tag of a segment used by the static conversion. -/
def segTagName (name : String) : String := "seg_" ++ lowerString (collapseWs name)

/-- The queries of the segment-creation handler we track for ordering. -/
inductive SegmentQueryEvent where
  | contactQuery
  | segmentWrite
deriving DecidableEq, Repr

/-- `POST /api/segments`, given a present name and criteria: validate the
criteria through the compiler first; only on success run the contact count
query and persist the segment. -/
def createSegmentHandler (db : DB) (name : String) (criteria : Criteria)
    (now : Nat) : DB × List SegmentQueryEvent × Except String SegmentRow :=
  match buildWhereClause criteria with
  | .error e => (db, [], .error e)
  | .ok _ =>
    match evaluateCount db.contacts criteria with
    | .error e => (db, [.contactQuery], .error e)
    | .ok contactCount =>
      let seg : SegmentRow :=
        { id := name, name := collapseWs (lowerString name),
          type := "DYNAMIC", criteria := criteria,
          contactCount := contactCount, lastEvaluatedAt := some now }
      ({ db with segments := db.segments ++ [seg] },
       [.contactQuery, .segmentWrite], .ok seg)

def updateSegmentRow (db : DB) (sid : String) (f : SegmentRow → SegmentRow) : DB :=
  { db with segments := db.segments.map (fun sg => if sg.id = sid then f sg else sg) }

/-- Append a tag to the contact with the given id (`tags: push`). -/
def pushTagToContact (db : DB) (contactId tagName : String) : DB :=
  { db with contacts := db.contacts.map (fun c =>
      if c.id = contactId then { c with tags := c.tags ++ [tagName] } else c) }

/-- First phase of add-contacts: tag every contact of the evaluated snapshot
that does not already carry the tag in the snapshot. -/
def tagExistingContacts (db : DB) (existing : List Contact) (tagName : String) : DB :=
  existing.foldl (fun d ec =>
    if ec.tags.contains tagName then d else pushTagToContact d ec.id tagName) db

/-- Second phase: tag each requested contact id (fetched fresh each time),
counting how many were newly tagged. -/
def tagNewContacts (db : DB) (contactIds : List String) (tagName : String) :
    DB × Nat :=
  contactIds.foldl (fun (acc : DB × Nat) contactId =>
    match acc.1.contacts.find? (fun c => c.id = contactId) with
    | some ct =>
      if ct.tags.contains tagName then acc
      else (pushTagToContact acc.1 contactId tagName, acc.2 + 1)
    | none => acc) (db, 0)

/-- The tag-only criteria the conversion writes back. -/
def tagOnlyCriteria (tagName : String) : Criteria :=
  Criteria.mk "AND" [{ field := "tags", op := "has", value := .scalar (.str tagName) }] []

/-- `POST /api/segments/:id/add-contacts`: when the stored criteria have a
top-level non-tag rule and no top-level rule for this segment's own tag, first
tag all contacts matching the current criteria; then tag the requested ids;
finally replace the criteria with the single has-tag rule, set the type to
STATIC and re-evaluate the cached count. -/
def addContactsToSegment (db : DB) (segId : String) (contactIds : List String)
    (now : Nat) : DB × Except String (Nat × Nat) :=
  if contactIds.isEmpty then (db, .error "contactIds requis (tableau non vide)")
  else
    match db.segments.find? (fun sg => sg.id = segId) with
    | none => (db, .error "Segment non trouvé")
    | some segment =>
      let tagName := segTagName segment.name
      let criteria := segment.criteria
      let hasTagRule := criteria.rules.any (fun r =>
        decide (r.field = "tags" ∧ r.op = "has" ∧ r.value = .scalar (.str tagName)))
      let hasNonTagRules := criteria.rules.any (fun r =>
        decide (¬(r.field = "tags" ∧ r.op = "has")))
      let step1 : Except String DB :=
        if !hasTagRule && hasNonTagRules then
          match evaluateContacts db.contacts criteria with
          | .error e => .error e
          | .ok existingContacts => .ok (tagExistingContacts db existingContacts tagName)
        else .ok db
      match step1 with
      | .error e => (db, .error e)
      | .ok db1 =>
        let step2 := tagNewContacts db1 contactIds tagName
        let newCriteria := tagOnlyCriteria tagName
        let db3 := updateSegmentRow step2.1 segId (fun sg =>
          { sg with criteria := newCriteria, type := "STATIC" })
        match evaluateCount db3.contacts newCriteria with
        | .error e => (db3, .error e)
        | .ok contactCount =>
          let db4 := updateSegmentRow db3 segId (fun sg =>
            { sg with contactCount := contactCount, lastEvaluatedAt := some now })
          (db4, .ok (step2.2, contactCount))

/-! Concrete fixtures used to evaluate the handlers on closed inputs. -/

def tplA : Template :=
  { id := "t1", name := "promo", language := some "fr", content := "Bonjour" }

def contactA : Contact :=
  { id := "ct1", phone := "+24100000001", category := "ACTIVE",
    city := some "Libreville", country := some "GA", ageRange := none,
    gender := none, language := some "fr", accountType := none,
    engagementScore := 60, status := "ACTIVE", tags := [], optedIn := true,
    registrationDate := none, lastActivity := none,
    lastCampaignInteraction := none, createdAt := 0 }

def emptyCriteria : Criteria := Criteria.mk "AND" [] []

/-- Criteria whose only rule sits in a nested group. -/
def nestedCityCriteria : Criteria :=
  Criteria.mk "AND" []
    [Criteria.mk "AND" [{ field := "city", op := "eq", value := .scalar (.str "Libreville") }] []]

def mkCampaign (cid : String) (st : String) (crit : Option Criteria)
    (schedAt : Option Nat) : Campaign :=
  { id := cid, name := "camp", status := st, sent := 0, delivered := 0,
    read := 0, clicked := 0, failed := 0, template := tplA, segmentId := none,
    inlineCriteria := crit, legacySegment := none, scheduledAt := schedAt,
    startedAt := none, completedAt := none }

def dbCompleted : DB :=
  { campaigns := [mkCampaign "c1" "COMPLETED" (some emptyCriteria) none],
    contacts := [contactA], segments := [], messages := [] }

def dbDraft : DB :=
  { campaigns := [mkCampaign "c1" "DRAFT" (some emptyCriteria) none],
    contacts := [contactA], segments := [], messages := [] }

/-- A RUNNING campaign whose inline criteria match no contact. -/
def dbRunningZero : DB :=
  { campaigns := [mkCampaign "c1" "RUNNING"
      (some (Criteria.mk "AND" [{ field := "city", op := "eq", value := .scalar (.str "Nulleville") }] []))
      none],
    contacts := [contactA], segments := [], messages := [] }

def oracleOk : Contact → SendResult :=
  fun _ => { success := true, messageId := some "wamid.1", errorMsg := none }

/-- A segment whose dynamic criteria live in a nested group, with one matching
contact: the add-contacts conversion drops that contact from membership. -/
def segNested : SegmentRow :=
  { id := "s1", name := "zone", type := "DYNAMIC", criteria := nestedCityCriteria,
    contactCount := 1, lastEvaluatedAt := none }

def contactB : Contact :=
  { id := "ct2", phone := "+24100000002", category := "ACTIVE",
    city := some "Oyem", country := some "GA", ageRange := none,
    gender := none, language := some "fr", accountType := none,
    engagementScore := 10, status := "ACTIVE", tags := [], optedIn := true,
    registrationDate := none, lastActivity := none,
    lastCampaignInteraction := none, createdAt := 0 }

def dbSegNested : DB :=
  { campaigns := [], contacts := [contactA, contactB], segments := [segNested],
    messages := [] }

/-- Whether an event is the bulk message insert. -/
def LaunchEvent.isCreate : LaunchEvent → Bool
  | .createMessages _ => true
  | _ => false

/-- Whether an event is a network call to the gateway. -/
def LaunchEvent.isSend : LaunchEvent → Bool
  | .gatewaySend _ _ => true
  | _ => false

/-- A DRAFT campaign whose inline criteria match no contact. -/
def dbDraftZero : DB :=
  { campaigns := [mkCampaign "c1" "DRAFT"
      (some (Criteria.mk "AND" [{ field := "city", op := "eq", value := .scalar (.str "Nulleville") }] []))
      none],
    contacts := [contactA], segments := [], messages := [] }

/-- Lookup of a contact row by id (`findUnique`). -/
def getContact (db : DB) (cid : String) : Option Contact :=
  db.contacts.find? (fun c => c.id = cid)

/-- Lookup of a segment row by id (`findUnique`). -/
def getSegment (db : DB) (sid : String) : Option SegmentRow :=
  db.segments.find? (fun sg => sg.id = sid)

/-- How a contact row may change while tags are being pushed: identity, status
and opt-in are untouched and the tag set only grows. -/
def tagEvolved (c c2 : Contact) : Prop :=
  c2.id = c.id ∧ c2.status = c.status ∧ c2.optedIn = c.optedIn ∧
    ∀ t ∈ c.tags, t ∈ c2.tags

/-- Evaluated membership size of the tag-only criteria over a contact list. -/
def tagMembershipCount (cs : List Contact) (tag : String) : Nat :=
  (cs.filter (fun c => Cond.holds
    (Cond.andC [activeOptedCond,
      Cond.test "tags" (FieldTest.hasv (.scalar (.str tag)))]) c)).length

/-- A segment whose dynamic criteria sit at top level, with one matching
contact: membership survives the add-contacts conversion. -/
def topCityCriteria : Criteria :=
  Criteria.mk "AND" [{ field := "city", op := "eq", value := .scalar (.str "Libreville") }] []

def segTop : SegmentRow :=
  { id := "s2", name := "vip", type := "DYNAMIC", criteria := topCityCriteria,
    contactCount := 1, lastEvaluatedAt := none }

def dbSegTop : DB :=
  { campaigns := [], contacts := [contactA, contactB], segments := [segTop],
    messages := [] }

theorem applyStatusUpdate_failed (m : MessageStatus) :
    applyStatusUpdate m .failed = .FAILED := by
  cases m <;> decide

theorem applyStatusUpdate_from_FAILED (c : WaStatus) :
    applyStatusUpdate .FAILED c = .FAILED := by
  cases c <;> decide

theorem applyStatusUpdate_eq_statusMax (m : MessageStatus) (c : WaStatus)
    (hc : c ≠ .failed) : applyStatusUpdate m c = statusMax m (statusMap c) := by
  cases m <;> cases c <;> revert hc <;> decide

theorem statusMax_ne_FAILED (m : MessageStatus) (c : WaStatus)
    (hm : m ≠ .FAILED) (hc : c ≠ .failed) :
    statusMax m (statusMap c) ≠ .FAILED := by
  cases m <;> cases c <;> revert hm hc <;> decide

theorem finalStatus_cons (c : WaStatus) (t : List WaStatus) (m0 : MessageStatus) :
    finalStatus (c :: t) m0 = finalStatus t (applyStatusUpdate m0 c) := by
  by_cases hc : c = .failed
  · subst hc
    simp [finalStatus, applyStatusUpdate_failed]
  · by_cases hm : m0 = .FAILED
    · subst hm
      simp [finalStatus, applyStatusUpdate_from_FAILED, hc]
    · rw [applyStatusUpdate_eq_statusMax m0 c hc]
      simp [finalStatus, hc, hm, Ne.symm hc, statusMax_ne_FAILED m0 c hm hc]

/-- Folding the reconciler over a callback list computes the closed form. -/
theorem foldl_applyStatusUpdate_eq_finalStatus :
    ∀ (cbs : List WaStatus) (m0 : MessageStatus),
      cbs.foldl applyStatusUpdate m0 = finalStatus cbs m0
  | [], m0 => by
      by_cases hm : m0 = .FAILED
      · subst hm; simp [finalStatus]
      · simp [finalStatus, hm]
  | c :: t, m0 => by
      rw [List.foldl_cons, foldl_applyStatusUpdate_eq_finalStatus t, finalStatus_cons]

theorem finalStatus_perm {l₁ l₂ : List WaStatus} (p : l₁.Perm l₂) (m0 : MessageStatus) :
    finalStatus l₁ m0 = finalStatus l₂ m0 := by
  haveI : RightCommutative (fun (m : MessageStatus) (c : WaStatus) => statusMax m (statusMap c)) :=
    ⟨by intro b a₁ a₂; cases b <;> cases a₁ <;> cases a₂ <;> decide⟩
  by_cases h : WaStatus.failed ∈ l₁ ∨ m0 = .FAILED
  · have h2 : WaStatus.failed ∈ l₂ ∨ m0 = .FAILED := by
      rcases h with h | h
      · exact Or.inl (p.mem_iff.mp h)
      · exact Or.inr h
    simp [finalStatus, h, h2]
  · have h2 : ¬(WaStatus.failed ∈ l₂ ∨ m0 = .FAILED) := by
      intro hx
      rcases hx with hx | hx
      · exact h (Or.inl (p.mem_iff.mpr hx))
      · exact h (Or.inr hx)
    simp [finalStatus, h, h2, p.foldl_eq m0]

/-- C1: a callback status is applied only if its rank exceeds the message's
current rank or it is FAILED; the reconciler never regresses a message; the
result of any callback sequence from PENDING is permutation-invariant and
equals the highest-ranked non-FAILED status received, or FAILED if a FAILED
callback arrived; in particular [sent, delivered, sent] ends at DELIVERED. -/
theorem C1_reconciler_monotonic :
    (∀ (m : MessageStatus) (c : WaStatus),
        statusOrder (statusMap c) ≤ statusOrder m ∧ statusMap c ≠ .FAILED →
          applyStatusUpdate m c = m) ∧
    (∀ (m : MessageStatus) (c : WaStatus),
        ¬(statusOrder (statusMap c) ≤ statusOrder m ∧ statusMap c ≠ .FAILED) →
          applyStatusUpdate m c = statusMap c) ∧
    (∀ (m : MessageStatus) (c : WaStatus),
        statusOrder m ≤ statusOrder (applyStatusUpdate m c)) ∧
    (∀ (l₁ l₂ : List WaStatus), l₁.Perm l₂ →
        l₁.foldl applyStatusUpdate .PENDING = l₂.foldl applyStatusUpdate .PENDING) ∧
    (∀ l : List WaStatus,
        l.foldl applyStatusUpdate .PENDING = finalStatus l .PENDING) ∧
    [WaStatus.sent, .delivered, .sent].foldl applyStatusUpdate .PENDING = .DELIVERED := by
  refine ⟨?_, ?_, ?_, ?_, ?_, ?_⟩
  · intro m c h
    simp [applyStatusUpdate, h]
  · intro m c h
    simp [applyStatusUpdate, h]
  · intro m c
    cases m <;> cases c <;> decide
  · intro l₁ l₂ p
    rw [foldl_applyStatusUpdate_eq_finalStatus, foldl_applyStatusUpdate_eq_finalStatus,
      finalStatus_perm p]
  · intro l
    exact foldl_applyStatusUpdate_eq_finalStatus l .PENDING
  · decide

theorem C1_reconciler_monotonic_witness :
    applyStatusUpdate .READ .sent = .READ ∧
    applyStatusUpdate .PENDING .delivered = .DELIVERED ∧
    [WaStatus.sent, .delivered, .sent].foldl applyStatusUpdate .PENDING =
      [WaStatus.delivered, .sent, .sent].foldl applyStatusUpdate .PENDING :=
  ⟨C1_reconciler_monotonic.1 .READ .sent (by decide),
   C1_reconciler_monotonic.2.1 .PENDING .delivered (by decide),
   C1_reconciler_monotonic.2.2.2.1 _ _ (by decide)⟩

/-- C2 is false as stated: a duplicate FAILED callback is accepted again (the
FAILED escape in the guard), changing the message and incrementing the
campaign `failed` counter a second time; and the direct-send path overwrites
the campaign counters with values recomputed by re-aggregation, discarding the
previous counter values. -/
theorem C2_counterexample :
    (handleStatusUpdate
        (handleStatusUpdate ⟨⟨.PENDING, none, none, none, none⟩, ⟨0, 0, 0, 0, 0⟩⟩ .failed 1 "err")
        .failed 2 "err" ≠
      handleStatusUpdate ⟨⟨.PENDING, none, none, none, none⟩, ⟨0, 0, 0, 0, 0⟩⟩ .failed 1 "err") ∧
    ((handleStatusUpdate
        (handleStatusUpdate ⟨⟨.PENDING, none, none, none, none⟩, ⟨0, 0, 0, 0, 0⟩⟩ .failed 1 "err")
        .failed 2 "err").camp.failed = 2) ∧
    directSendStatsUpdate [] ⟨5, 3, 2, 0, 1⟩ = ⟨0, 0, 2, 0, 0⟩ := by
  refine ⟨by decide, by decide, by decide⟩

/-- C2 (amended): the webhook reconciler is idempotent for duplicate non-FAILED
callbacks (the second delivery changes neither the message nor the campaign
counters); a rejected callback changes nothing; and each accepted callback
increments exactly the counter of its status by one, leaving the others
untouched (a duplicate FAILED callback is accepted again and re-increments
`failed`; the direct-send dispatch path separately recomputes the counters by
re-aggregation). -/
theorem C2_counter_increments :
    (∀ (s : ReconState) (c : WaStatus) (n1 n2 : Nat) (e1 e2 : String),
        c ≠ .failed →
          handleStatusUpdate (handleStatusUpdate s c n1 e1) c n2 e2 =
            handleStatusUpdate s c n1 e1) ∧
    (∀ (s : ReconState) (c : WaStatus) (n : Nat) (e : String),
        acceptsUpdate s.msg.status c = false → handleStatusUpdate s c n e = s) ∧
    (∀ (s : ReconState) (c : WaStatus) (n : Nat) (e : String),
        acceptsUpdate s.msg.status c = true →
          (handleStatusUpdate s c n e).camp.sent =
              s.camp.sent + (if c = .sent then 1 else 0) ∧
          (handleStatusUpdate s c n e).camp.delivered =
              s.camp.delivered + (if c = .delivered then 1 else 0) ∧
          (handleStatusUpdate s c n e).camp.read =
              s.camp.read + (if c = .read then 1 else 0) ∧
          (handleStatusUpdate s c n e).camp.failed =
              s.camp.failed + (if c = .failed then 1 else 0) ∧
          (handleStatusUpdate s c n e).camp.clicked = s.camp.clicked) := by
  refine ⟨?_, ?_, ?_⟩
  · rintro ⟨⟨st, d, r, f, er⟩, cnt⟩ c n1 n2 e1 e2 hc
    cases c <;> cases st <;>
      simp [handleStatusUpdate, statusMap, statusOrder] <;>
      exact absurd rfl hc
  · rintro ⟨⟨st, d, r, f, er⟩, cnt⟩ c n e h
    cases c <;> cases st <;>
      simp_all [handleStatusUpdate, acceptsUpdate, statusMap, statusOrder]
  · rintro ⟨⟨st, d, r, f, er⟩, cnt⟩ c n e h
    cases c <;> cases st <;>
      simp_all [handleStatusUpdate, acceptsUpdate, statusMap, statusOrder]

theorem C2_counter_increments_witness :
    handleStatusUpdate
        (handleStatusUpdate ⟨⟨.PENDING, none, none, none, none⟩, ⟨0, 0, 0, 0, 0⟩⟩ .read 1 "")
        .read 2 "" =
      handleStatusUpdate ⟨⟨.PENDING, none, none, none, none⟩, ⟨0, 0, 0, 0, 0⟩⟩ .read 1 "" ∧
    handleStatusUpdate ⟨⟨.READ, none, none, none, none⟩, ⟨0, 0, 0, 0, 0⟩⟩ .sent 3 "" =
      ⟨⟨.READ, none, none, none, none⟩, ⟨0, 0, 0, 0, 0⟩⟩ ∧
    (handleStatusUpdate ⟨⟨.PENDING, none, none, none, none⟩, ⟨0, 0, 0, 0, 0⟩⟩ .delivered 1 "").camp.delivered =
      0 + (if WaStatus.delivered = WaStatus.delivered then 1 else 0) :=
  ⟨C2_counter_increments.1 _ .read 1 2 "" "" (by decide),
   C2_counter_increments.2.1 _ .sent 3 "" (by decide),
   (C2_counter_increments.2.2 _ .delivered 1 "" (by decide)).2.1⟩

theorem mem_updateCampaignRow_of_ne {db : DB} {cid : String} {f : Campaign → Campaign}
    {c : Campaign} (hc : c ∈ db.campaigns) (hne : ¬ c.id = cid) :
    c ∈ (updateCampaignRow db cid f).campaigns := by
  unfold updateCampaignRow
  exact List.mem_map.mpr ⟨c, hc, by simp [hne]⟩

theorem foldl_sendStep_campaigns (camp : Campaign) (oracle : Contact → SendResult)
    (now : Nat) :
    ∀ (batch : List Contact) (acc : DB × List LaunchEvent),
      (batch.foldl (sendStep camp oracle now) acc).1.campaigns = acc.1.campaigns
  | [], acc => rfl
  | ct :: rest, acc => by
    rw [List.foldl_cons, foldl_sendStep_campaigns camp oracle now rest]
    rfl

theorem sendBatch_campaigns (db : DB) (camp : Campaign) (batch : List Contact)
    (oracle : Contact → SendResult) (now : Nat) :
    (sendBatch db camp batch oracle now).1.campaigns = db.campaigns :=
  foldl_sendStep_campaigns camp oracle now batch (db, [])

theorem batchStep_mem {camp : Campaign} {oracle : Contact → SendResult} {now : Nat}
    {acc : DB × List LaunchEvent} {batch : List Contact} {c : Campaign}
    (hc : c ∈ acc.1.campaigns) (hne : ¬ c.id = camp.id) :
    c ∈ (batchStep camp oracle now acc batch).1.campaigns := by
  unfold batchStep batchStatsUpdate
  exact mem_updateCampaignRow_of_ne
    (by rw [sendBatch_campaigns]; exact hc) hne

theorem foldl_batchStep_mem (camp : Campaign) (oracle : Contact → SendResult)
    (now : Nat) :
    ∀ (batches : List (List Contact)) (acc : DB × List LaunchEvent) (c : Campaign),
      c ∈ acc.1.campaigns → ¬ c.id = camp.id →
      c ∈ (batches.foldl (batchStep camp oracle now) acc).1.campaigns
  | [], acc, c, hc, _ => hc
  | b :: rest, acc, c, hc, hne => by
    rw [List.foldl_cons]
    exact foldl_batchStep_mem camp oracle now rest _ c (batchStep_mem hc hne) hne

theorem processDirectSend_mem {db : DB} {camp : Campaign}
    {batches : List (List Contact)} {oracle : Contact → SendResult} {now : Nat}
    {c : Campaign} (hc : c ∈ db.campaigns) (hne : ¬ c.id = camp.id) :
    c ∈ (processDirectSend db camp batches oracle now).1.campaigns := by
  unfold processDirectSend
  have hfold := foldl_batchStep_mem camp oracle now batches (db, []) c hc hne
  dsimp only
  split
  · exact mem_updateCampaignRow_of_ne hfold hne
  · exact hfold

theorem launchCore_mem {db : DB} {cid : String} {now : Nat} {c : Campaign}
    (hc : c ∈ db.campaigns) (hne : ¬ c.id = cid) :
    c ∈ (launchCampaignCore db cid now).1.campaigns := by
  unfold launchCampaignCore
  cases hfind : db.campaigns.find? (fun x => x.id = cid) with
  | none => exact hc
  | some campaign =>
    by_cases hst : campaign.status = "RUNNING"
    · simp only [if_pos hst]
      exact hc
    · simp only [if_neg hst]
      cases hres : resolveTargetContacts db campaign with
      | error e => exact hc
      | ok contacts =>
        by_cases hlen : contacts.length = 0
        · simp only [if_pos hlen]
          exact hc
        · simp only [if_neg hlen]
          exact mem_updateCampaignRow_of_ne hc hne

theorem launchCore_ok_id {db : DB} {cid : String} {now : Nat} {db1 : DB}
    {camp : Campaign} {contacts : List Contact} {evs : List LaunchEvent}
    (h : launchCampaignCore db cid now = (db1, .ok (camp, contacts), evs)) :
    camp.id = cid := by
  unfold launchCampaignCore at h
  split at h
  · simp at h
  · rename_i campaign hfind
    have hid : campaign.id = cid := by
      have := List.find?_some hfind
      simpa using this
    split at h
    · simp at h
    · split at h
      · simp at h
      · rename_i cts hres
        split at h
        · simp at h
        · simp only [Prod.mk.injEq, Except.ok.injEq] at h
          obtain ⟨-, ⟨hcamp, -⟩, -⟩ := h
          rw [← hcamp]
          exact hid

theorem launchAndSend_mem {db : DB} {cid : String} {now : Nat}
    {oracle : Contact → SendResult} {bs : Nat} {c : Campaign}
    (hc : c ∈ db.campaigns) (hne : ¬ c.id = cid) :
    c ∈ (launchAndSend db cid now oracle bs).1.campaigns := by
  have hcore := @launchCore_mem db cid now c hc hne
  unfold launchAndSend
  cases h : launchCampaignCore db cid now with
  | mk db1 rest =>
    rw [h] at hcore
    obtain ⟨r, evs⟩ := rest
    cases r with
    | error e => exact hcore
    | ok pr =>
      obtain ⟨camp, contacts⟩ := pr
      have hid : camp.id = cid := launchCore_ok_id h
      exact processDirectSend_mem hcore (by rw [hid]; exact hne)

theorem foldl_schedStep_mem (now : Nat) (oracle : Contact → SendResult) (bs : Nat) :
    ∀ (sel : List Campaign) (d : DB) (c : Campaign),
      (∀ sc ∈ sel, ¬ c.id = sc.id) → c ∈ d.campaigns →
      c ∈ (sel.foldl (schedStep now oracle bs) d).campaigns
  | [], _, _, _, hc => hc
  | sc :: rest, d, c, hids, hc => by
    rw [List.foldl_cons]
    exact foldl_schedStep_mem now oracle bs rest _ c
      (fun x hx => hids x (List.mem_cons_of_mem _ hx))
      (launchAndSend_mem hc (hids sc (List.mem_cons_self _ _)))

/-- The successful launch path in closed form: with the campaign found, not
RUNNING, and a nonempty resolved target set, launch bulk-inserts one PENDING
row per contact and flips the campaign to RUNNING. -/
theorem launchCore_run (db : DB) (cid : String) (now : Nat) (camp : Campaign)
    (contacts : List Contact)
    (hfind : db.campaigns.find? (fun c => c.id = cid) = some camp)
    (hstat : ¬ camp.status = "RUNNING")
    (hres : resolveTargetContacts db camp = .ok contacts)
    (hne : contacts ≠ []) :
    launchCampaignCore db cid now =
      ({ db with
          campaigns := db.campaigns.map (fun c =>
            if c.id = cid then { c with status := "RUNNING", startedAt := some now } else c),
          messages := db.messages ++ contacts.map (fun ct => pendingRow camp.id ct.id) },
       .ok (camp, contacts),
       [.targetResolve contacts.length,
        .createMessages (contacts.map (fun ct => pendingRow camp.id ct.id)),
        .campaignUpdate cid "RUNNING"]) := by
  unfold launchCampaignCore
  rw [hfind]
  simp only [if_neg hstat, hres]
  rw [if_neg (by simpa using hne)]
  rfl

/-- C3 is false as stated: launch guards only against RUNNING, so an explicit
launch on a COMPLETED campaign with one matching contact succeeds, moves the
campaign to RUNNING and creates a message row. -/
theorem C3_counterexample :
    dbCompleted.campaigns.map (fun c => c.status) = ["COMPLETED"] ∧
    (launchCampaignCore dbCompleted "c1" 42).2.1.isOk = true ∧
    (launchCampaignCore dbCompleted "c1" 42).1.campaigns.map (fun c => c.status) =
      ["RUNNING"] ∧
    (launchCampaignCore dbCompleted "c1" 42).1.messages.length = 1 ∧
    dbCompleted.messages.length = 0 :=
  ⟨rfl, rfl, rfl, rfl, rfl⟩

/-- C3 (amended): COMPLETED is terminal for cancel and for the scheduler —
cancelling a COMPLETED campaign is rejected without any write, and a scheduler
tick never selects or modifies a COMPLETED campaign — but explicit launch only
rejects RUNNING, so launch on a COMPLETED campaign whose targeting resolves to
at least one contact is accepted, sets it RUNNING and creates message rows. -/
theorem C3_completed_terminality :
    (∀ (db : DB) (cid : String) (camp : Campaign),
        db.campaigns.find? (fun c => c.id = cid) = some camp →
        camp.status = "COMPLETED" →
        cancelCampaign db cid =
          (db, .error "Impossible d\x27annuler une campagne terminée")) ∧
    (∀ (db : DB) (now : Nat) (oracle : Contact → SendResult) (bs : Nat)
        (c : Campaign),
        (db.campaigns.map (fun x => x.id)).Nodup →
        c ∈ db.campaigns → c.status = "COMPLETED" →
        c ∈ (schedulerTick db now oracle bs).campaigns) ∧
    (∀ (db : DB) (cid : String) (now : Nat) (camp : Campaign)
        (contacts : List Contact),
        db.campaigns.find? (fun c => c.id = cid) = some camp →
        camp.status = "COMPLETED" →
        resolveTargetContacts db camp = .ok contacts →
        contacts ≠ [] →
        (launchCampaignCore db cid now).2.1 = .ok (camp, contacts) ∧
        (launchCampaignCore db cid now).1.campaigns =
          db.campaigns.map (fun c =>
            if c.id = cid then { c with status := "RUNNING", startedAt := some now } else c) ∧
        (launchCampaignCore db cid now).1.messages =
          db.messages ++ contacts.map (fun ct => pendingRow camp.id ct.id)) := by
  refine ⟨?_, ?_, ?_⟩
  · intro db cid camp hfind hstat
    unfold cancelCampaign
    rw [hfind]
    dsimp only
    rw [if_pos hstat]
  · intro db now oracle bs c hnd hc hstat
    unfold schedulerTick
    apply foldl_schedStep_mem
    · intro sc hsc hid
      have hscdb : sc ∈ db.campaigns := List.mem_of_mem_filter hsc
      have hsched : sc.status = "SCHEDULED" := by
        have := List.of_mem_filter hsc
        simp only [Bool.and_eq_true, decide_eq_true_eq] at this
        exact this.1
      have : c = sc := List.inj_on_of_nodup_map hnd hc hscdb hid
      rw [this] at hstat
      rw [hstat] at hsched
      exact absurd hsched (by decide)
    · exact hc
  · intro db cid now camp contacts hfind hstat hres hne
    have hrun := launchCore_run db cid now camp contacts hfind
      (by rw [hstat]; decide) hres hne
    rw [hrun]
    exact ⟨rfl, rfl, rfl⟩

theorem C3_completed_terminality_witness :
    cancelCampaign dbCompleted "c1" =
      (dbCompleted, .error "Impossible d\x27annuler une campagne terminée") ∧
    mkCampaign "c1" "COMPLETED" (some emptyCriteria) none ∈
      (schedulerTick dbCompleted 99 oracleOk 100).campaigns ∧
    (launchCampaignCore dbCompleted "c1" 42).2.1 =
      .ok (mkCampaign "c1" "COMPLETED" (some emptyCriteria) none, [contactA]) :=
  ⟨C3_completed_terminality.1 dbCompleted "c1" _ rfl rfl,
   C3_completed_terminality.2.1 dbCompleted 99 oracleOk 100 _ (by decide)
     (List.mem_singleton.mpr rfl) rfl,
   (C3_completed_terminality.2.2 dbCompleted "c1" 42 _ [contactA] rfl rfl rfl
     (by decide)).1⟩

theorem foldl_sendStep_events_noCreate (camp : Campaign)
    (oracle : Contact → SendResult) (now : Nat) :
    ∀ (batch : List Contact) (acc : DB × List LaunchEvent),
      (∀ ev ∈ acc.2, ev.isCreate = false) →
      ∀ ev ∈ (batch.foldl (sendStep camp oracle now) acc).2, ev.isCreate = false
  | [], _, hacc => hacc
  | ct :: rest, acc, hacc => by
    rw [List.foldl_cons]
    refine foldl_sendStep_events_noCreate camp oracle now rest _ ?_
    intro ev hev
    rcases List.mem_append.mp hev with h | h
    · exact hacc ev h
    · rcases List.mem_cons.mp h with h | h
      · rw [h]; rfl
      · rw [List.mem_singleton.mp h]; rfl

theorem batchStep_events_noCreate {camp : Campaign} {oracle : Contact → SendResult}
    {now : Nat} {acc : DB × List LaunchEvent} {batch : List Contact}
    (hacc : ∀ ev ∈ acc.2, ev.isCreate = false) :
    ∀ ev ∈ (batchStep camp oracle now acc batch).2, ev.isCreate = false := by
  intro ev hev
  unfold batchStep at hev
  dsimp only at hev
  rcases List.mem_append.mp hev with h | h
  · rcases List.mem_append.mp h with h | h
    · exact hacc ev h
    · exact foldl_sendStep_events_noCreate camp oracle now batch (acc.1, [])
        (by intro e he; simp at he) ev h
  · rw [List.mem_singleton.mp h]; rfl

theorem foldl_batchStep_events_noCreate (camp : Campaign)
    (oracle : Contact → SendResult) (now : Nat) :
    ∀ (batches : List (List Contact)) (acc : DB × List LaunchEvent),
      (∀ ev ∈ acc.2, ev.isCreate = false) →
      ∀ ev ∈ (batches.foldl (batchStep camp oracle now) acc).2, ev.isCreate = false
  | [], _, hacc => hacc
  | b :: rest, acc, hacc => by
    rw [List.foldl_cons]
    exact foldl_batchStep_events_noCreate camp oracle now rest _
      (batchStep_events_noCreate hacc)

theorem processDirectSend_events_noCreate (db : DB) (camp : Campaign)
    (batches : List (List Contact)) (oracle : Contact → SendResult) (now : Nat) :
    ∀ ev ∈ (processDirectSend db camp batches oracle now).2, ev.isCreate = false := by
  intro ev hev
  unfold processDirectSend at hev
  dsimp only at hev
  have hbase := foldl_batchStep_events_noCreate camp oracle now batches (db, [])
    (by intro e he; simp at he)
  split at hev
  · rcases List.mem_append.mp hev with h | h
    · exact hbase ev h
    · rw [List.mem_singleton.mp h]; rfl
  · exact hbase ev hev

/-- C4 is false as stated: the rows bulk-inserted at launch carry no tracking
token at all (the `createMany` data sets no `trackingId`), so a launched
campaign's message rows all have a null tracking token. -/
theorem C4_counterexample :
    (launchCampaignCore dbDraft "c1" 7).2.1.isOk = true ∧
    (launchCampaignCore dbDraft "c1" 7).1.messages.map (fun m => m.trackingId) =
      [none] ∧
    dbDraft.contacts.length = 1 :=
  ⟨rfl, rfl, rfl⟩

/-- C4 (amended): when a campaign enters RUNNING via launch, exactly one bulk
insert creates one PENDING message row per resolved contact — with no tracking
token populated (the `trackingId` column stays null despite its unique index) —
and this insert happens before any network call to the gateway: the event
trace is the creation prefix (free of gateway sends) followed by the dispatch
events (free of message creations). -/
theorem C4_rows_before_sends (db : DB) (cid : String) (now : Nat)
    (oracle : Contact → SendResult) (bs : Nat) (camp : Campaign)
    (contacts : List Contact)
    (hfind : db.campaigns.find? (fun c => c.id = cid) = some camp)
    (hstat : ¬ camp.status = "RUNNING")
    (hres : resolveTargetContacts db camp = .ok contacts)
    (hne : contacts ≠ []) :
    (launchAndSend db cid now oracle bs).2.2 =
      [LaunchEvent.targetResolve contacts.length,
       .createMessages (contacts.map (fun ct => pendingRow camp.id ct.id)),
       .campaignUpdate cid "RUNNING"] ++
      (processDirectSend (launchCampaignCore db cid now).1 camp
        (chunkList bs contacts) oracle now).2 ∧
    (∀ r ∈ contacts.map (fun ct => pendingRow camp.id ct.id),
        r.status = .PENDING ∧ r.trackingId = none) ∧
    (contacts.map (fun ct => pendingRow camp.id ct.id)).map (fun r => r.contactId) =
      contacts.map (fun ct => ct.id) ∧
    (∀ ev ∈ [LaunchEvent.targetResolve contacts.length,
             .createMessages (contacts.map (fun ct => pendingRow camp.id ct.id)),
             .campaignUpdate cid "RUNNING"], ev.isSend = false) ∧
    (∀ ev ∈ (processDirectSend (launchCampaignCore db cid now).1 camp
        (chunkList bs contacts) oracle now).2, ev.isCreate = false) := by
  have hrun := launchCore_run db cid now camp contacts hfind hstat hres hne
  refine ⟨?_, ?_, ?_, ?_, ?_⟩
  · unfold launchAndSend
    rw [hrun]
  · intro r hr
    rcases List.mem_map.mp hr with ⟨ct, -, hct⟩
    rw [← hct]
    exact ⟨rfl, rfl⟩
  · rw [List.map_map]
    rfl
  · intro ev hev
    rcases List.mem_cons.mp hev with h | h
    · rw [h]; rfl
    · rcases List.mem_cons.mp h with h | h
      · rw [h]; rfl
      · rw [List.mem_singleton.mp h]; rfl
  · exact processDirectSend_events_noCreate _ camp _ oracle now

theorem C4_rows_before_sends_witness :
    (launchAndSend dbDraft "c1" 7 oracleOk 100).2.2 =
      [LaunchEvent.targetResolve 1,
       .createMessages [pendingRow "c1" "ct1"],
       .campaignUpdate "c1" "RUNNING"] ++
      (processDirectSend (launchCampaignCore dbDraft "c1" 7).1
        (mkCampaign "c1" "DRAFT" (some emptyCriteria) none)
        (chunkList 100 [contactA]) oracleOk 7).2 :=
  (C4_rows_before_sends dbDraft "c1" 7 oracleOk 100
    (mkCampaign "c1" "DRAFT" (some emptyCriteria) none) [contactA]
    rfl (by decide) rfl (by decide)).1

/-- C5 is false as stated at one edge: for a RUNNING campaign whose targeting
resolves to zero contacts, launch fails — atomically — but with the
"already running" guard error, not the "no recipients" targeting error. -/
theorem C5_counterexample :
    resolveTargetContacts dbRunningZero
      (mkCampaign "c1" "RUNNING"
        (some (Criteria.mk "AND" [{ field := "city", op := "eq", value := .scalar (.str "Nulleville") }] []))
        none) = .ok [] ∧
    (launchCampaignCore dbRunningZero "c1" 0).2.1 =
      .error "La campagne est déjà en cours" ∧
    (launchCampaignCore dbRunningZero "c1" 0).2.1 ≠
      .error "Aucun contact trouvé pour ce segment" := by
  refine ⟨rfl, rfl, ?_⟩
  intro h
  rw [show (launchCampaignCore dbRunningZero "c1" 0).2.1 =
      Except.error "La campagne est déjà en cours" from rfl] at h
  injection h with h'
  exact absurd h' (by decide)

/-- C5 (amended): for every campaign that is not already RUNNING and whose
targeting resolves to zero contacts, launch fails with the "no recipients"
targeting error and is atomic: the whole state — the campaign's fields and the
message table — is returned unchanged, and only the target-resolution query
ran. (A campaign already RUNNING is instead rejected by the concurrency guard
before targeting.) -/
theorem C5_zero_targets (db : DB) (cid : String) (now : Nat) (camp : Campaign)
    (hfind : db.campaigns.find? (fun c => c.id = cid) = some camp)
    (hstat : ¬ camp.status = "RUNNING")
    (hres : resolveTargetContacts db camp = .ok []) :
    launchCampaignCore db cid now =
      (db, .error "Aucun contact trouvé pour ce segment", [.targetResolve 0]) := by
  unfold launchCampaignCore
  rw [hfind]
  dsimp only
  rw [if_neg hstat, hres]
  rfl

theorem C5_zero_targets_witness :
    launchCampaignCore dbDraftZero "c1" 3 =
      (dbDraftZero, .error "Aucun contact trouvé pour ce segment", [.targetResolve 0]) :=
  C5_zero_targets dbDraftZero "c1" 3
    (mkCampaign "c1" "DRAFT"
      (some (Criteria.mk "AND" [{ field := "city", op := "eq", value := .scalar (.str "Nulleville") }] []))
      none)
    rfl (by decide) rfl

/-- C6: re-launching a RUNNING campaign is rejected by the guard before any
targeting or message creation — the event trace is empty, the returned state
is the input state, and in particular the campaign's message rows are
unchanged, so their number cannot double. -/
theorem C6_running_relaunch_rejected (db : DB) (cid : String) (now : Nat)
    (oracle : Contact → SendResult) (bs : Nat) (camp : Campaign)
    (hfind : db.campaigns.find? (fun c => c.id = cid) = some camp)
    (hstat : camp.status = "RUNNING") :
    launchAndSend db cid now oracle bs =
      (db, .error "La campagne est déjà en cours", []) ∧
    (launchAndSend db cid now oracle bs).1.messages = db.messages := by
  have hcore : launchCampaignCore db cid now =
      (db, .error "La campagne est déjà en cours", []) := by
    unfold launchCampaignCore
    rw [hfind]
    dsimp only
    rw [if_pos hstat]
  constructor
  · unfold launchAndSend
    rw [hcore]
  · unfold launchAndSend
    rw [hcore]

theorem C6_running_relaunch_rejected_witness :
    launchAndSend dbRunningZero "c1" 0 oracleOk 100 =
      (dbRunningZero, .error "La campagne est déjà en cours", []) :=
  (C6_running_relaunch_rejected dbRunningZero "c1" 0 oracleOk 100
    (mkCampaign "c1" "RUNNING"
      (some (Criteria.mk "AND" [{ field := "city", op := "eq", value := .scalar (.str "Nulleville") }] []))
      none)
    rfl rfl).1

theorem buildRuleCondition_error_of_bad {r : Rule} (h : r.isValidRule = false) :
    ∃ e, buildRuleCondition r = .error e := by
  obtain ⟨f, o, v⟩ := r
  unfold Rule.isValidRule at h
  cases hf : ALLOWED_FIELDS.contains f with
  | false =>
    refine ⟨"Champ non autorisé: " ++ f, ?_⟩
    unfold buildRuleCondition
    rw [hf]
    rfl
  | true =>
    have hop : ruleOps.contains o = false := by
      cases hob : ruleOps.contains o
      · rfl
      · rw [hf, hob] at h
        simp at h
    have hop' : ¬ o ∈ ruleOps := by
      intro hmem
      have h2 : ruleOps.contains o = true := List.elem_eq_true_of_mem hmem
      rw [h2] at hop
      exact Bool.noConfusion hop
    simp only [ruleOps, List.mem_cons, List.not_mem_nil, or_false] at hop'
    push_neg at hop'
    refine ⟨"Opérateur non supporté: " ++ o, ?_⟩
    unfold buildRuleCondition
    rw [hf]
    simp only [Bool.not_true, Bool.false_eq_true, if_false]
    split
    · exact absurd rfl hop'.1
    · exact absurd rfl hop'.2.1
    · exact absurd rfl hop'.2.2.1
    · exact absurd rfl hop'.2.2.2.1
    · exact absurd rfl hop'.2.2.2.2.1
    · exact absurd rfl hop'.2.2.2.2.2.1
    · exact absurd rfl hop'.2.2.2.2.2.2.1
    · exact absurd rfl hop'.2.2.2.2.2.2.2.1
    · exact absurd rfl hop'.2.2.2.2.2.2.2.2.1
    · exact absurd rfl hop'.2.2.2.2.2.2.2.2.2.1
    · exact absurd rfl hop'.2.2.2.2.2.2.2.2.2.2.1
    · exact absurd rfl hop'.2.2.2.2.2.2.2.2.2.2.2
    · rfl

theorem buildRuleCondition_ok_of_valid {r : Rule} (h : r.isValidRule = true) :
    ∃ c, buildRuleCondition r = .ok c := by
  obtain ⟨f, o, v⟩ := r
  unfold Rule.isValidRule at h
  dsimp only at h
  rw [Bool.and_eq_true] at h
  obtain ⟨hf, hop⟩ := h
  have hmem : o ∈ ruleOps := List.mem_of_elem_eq_true hop
  simp only [ruleOps, List.mem_cons, List.not_mem_nil, or_false] at hmem
  rcases hmem with h | h | h | h | h | h | h | h | h | h | h | h <;>
    (subst h; exact ⟨_, by unfold buildRuleCondition; rw [hf]; rfl⟩)

theorem buildRules_error_of_bad :
    ∀ rs : List Rule, rs.any (fun r => !r.isValidRule) = true →
      ∃ e, buildRules rs = .error e
  | r :: rs, h => by
    cases hv : r.isValidRule with
    | false =>
      obtain ⟨e, he⟩ := buildRuleCondition_error_of_bad hv
      exact ⟨e, by unfold buildRules; rw [he]⟩
    | true =>
      obtain ⟨c, hc⟩ := buildRuleCondition_ok_of_valid hv
      have hrest : rs.any (fun r => !r.isValidRule) = true := by
        simp only [List.any_cons, hv, Bool.not_true, Bool.false_or] at h
        exact h
      obtain ⟨e, he⟩ := buildRules_error_of_bad rs hrest
      exact ⟨e, by unfold buildRules; rw [hc, he]⟩

theorem buildRules_ok_of_valid :
    ∀ rs : List Rule, rs.any (fun r => !r.isValidRule) = false →
      ∃ cs, buildRules rs = .ok cs
  | [], _ => ⟨[], rfl⟩
  | r :: rs, h => by
    simp only [List.any_cons, Bool.or_eq_false_iff, Bool.not_eq_false'] at h
    obtain ⟨c, hc⟩ := buildRuleCondition_ok_of_valid h.1
    obtain ⟨cs, hcs⟩ := buildRules_ok_of_valid rs h.2
    exact ⟨c :: cs, by unfold buildRules; rw [hc, hcs]⟩

mutual

theorem hasBadRule_buildWhere_error :
    ∀ cr : Criteria, cr.hasBadRule = true → ∃ e, buildWhereClause cr = .error e
  | .mk oper rules groups, h => by
    rw [show (Criteria.mk oper rules groups).hasBadRule =
        (rules.any (fun r => !r.isValidRule) || hasBadRuleList groups) from rfl] at h
    cases hr : rules.any (fun r => !r.isValidRule) with
    | true =>
      obtain ⟨e, he⟩ := buildRules_error_of_bad rules hr
      exact ⟨e, by unfold buildWhereClause; rw [he]⟩
    | false =>
      obtain ⟨cs, hcs⟩ := buildRules_ok_of_valid rules hr
      have hgl : hasBadRuleList groups = true := by
        rw [hr] at h
        simpa using h
      obtain ⟨e, he⟩ := hasBadRuleList_buildGroups_error groups hgl
      exact ⟨e, by unfold buildWhereClause; rw [hcs, he]⟩

theorem hasBadRuleList_buildGroups_error :
    ∀ gs : List Criteria, hasBadRuleList gs = true → ∃ e, buildGroups gs = .error e
  | g :: gs, h => by
    rw [show hasBadRuleList (g :: gs) = (g.hasBadRule || hasBadRuleList gs) from rfl] at h
    cases hg : g.hasBadRule with
    | true =>
      obtain ⟨e, he⟩ := hasBadRule_buildWhere_error g hg
      exact ⟨e, by unfold buildGroups; rw [he]⟩
    | false =>
      have hrest : hasBadRuleList gs = true := by
        rw [hg] at h
        simpa using h
      cases hw : buildWhereClause g with
      | error e => exact ⟨e, by unfold buildGroups; rw [hw]⟩
      | ok c =>
        obtain ⟨e, he⟩ := hasBadRuleList_buildGroups_error gs hrest
        exact ⟨e, by unfold buildGroups; rw [hw, he]⟩

end

/-- C7: a criteria tree containing, at any depth, a rule whose field is
outside the allowed list or whose operator is outside the fixed vocabulary is
rejected by the compiler with a validation error; in the segment-creation
handler the compilation runs first, so on such criteria no contact query is
issued, no segment is written, and the state is returned unchanged. -/
theorem C7_bad_rule_rejected :
    (∀ cr : Criteria, cr.hasBadRule = true → ∃ e, buildWhereClause cr = .error e) ∧
    (∀ (db : DB) (nm : String) (cr : Criteria) (now : Nat),
        cr.hasBadRule = true →
        ∃ e, createSegmentHandler db nm cr now = (db, [], .error e)) := by
  refine ⟨hasBadRule_buildWhere_error, ?_⟩
  intro db nm cr now h
  obtain ⟨e, he⟩ := hasBadRule_buildWhere_error cr h
  exact ⟨e, by unfold createSegmentHandler; rw [he]⟩

theorem C7_bad_rule_rejected_witness :
    (∃ e, buildWhereClause
      (Criteria.mk "AND" [{ field := "password", op := "eq", value := .scalar (.str "x") }] []) =
        .error e) ∧
    (∃ e, buildWhereClause
      (Criteria.mk "AND" []
        [Criteria.mk "OR" [{ field := "city", op := "like", value := .scalar (.str "L") }] []]) =
        .error e) ∧
    (∃ e, createSegmentHandler dbDraft "seg"
      (Criteria.mk "AND" [{ field := "password", op := "eq", value := .scalar (.str "x") }] []) 0 =
        (dbDraft, [], .error e)) :=
  ⟨C7_bad_rule_rejected.1 _ (by decide),
   C7_bad_rule_rejected.1 _ (by decide),
   C7_bad_rule_rejected.2 dbDraft "seg" _ 0 (by decide)⟩

theorem evaluateContacts_mem {contacts : List Contact} {criteria : Criteria}
    {l : List Contact} (h : evaluateContacts contacts criteria = .ok l) :
    ∀ c ∈ l, c.status = "ACTIVE" ∧ c.optedIn = true := by
  unfold evaluateContacts at h
  cases hw : buildWhereClause criteria with
  | error e =>
    rw [hw] at h
    exact absurd h (by simp)
  | ok w =>
    rw [hw] at h
    simp only [Except.ok.injEq] at h
    subst h
    intro c hc
    have hf := List.of_mem_filter hc
    simp only [Cond.holds, Cond.holdsAll, activeOptedCond, evalFieldTest, getField,
      Bool.and_eq_true, decide_eq_true_eq, JVal.scalar.injEq, JScalar.str.injEq,
      JScalar.bool.injEq] at hf
    exact ⟨hf.1.1, hf.1.2.1⟩

/-- C10: in every targeting mode — segment reference, inline criteria, legacy
category — and in preview evaluation, the compiled predicate is conjoined with
the `status = ACTIVE, optedIn = true` filter, so every resolved or counted
contact is active and opted in. -/
theorem C10_targeting_active_opted :
    (∀ (contacts : List Contact) (criteria : Criteria) (l : List Contact),
        evaluateContacts contacts criteria = .ok l →
        ∀ c ∈ l, c.status = "ACTIVE" ∧ c.optedIn = true) ∧
    (∀ (contacts : List Contact) (criteria : Criteria) (n : Nat),
        evaluateCount contacts criteria = .ok n →
        ∃ l, evaluateContacts contacts criteria = .ok l ∧ n = l.length ∧
          ∀ c ∈ l, c.status = "ACTIVE" ∧ c.optedIn = true) ∧
    (∀ (db : DB) (campaign : Campaign) (l : List Contact),
        resolveTargetContacts db campaign = .ok l →
        ∀ c ∈ l, c.status = "ACTIVE" ∧ c.optedIn = true) := by
  refine ⟨fun _ _ _ h => evaluateContacts_mem h, ?_, ?_⟩
  · intro contacts criteria n h
    unfold evaluateCount at h
    cases he : evaluateContacts contacts criteria with
    | error e =>
      rw [he] at h
      exact absurd h (by simp [Except.map])
    | ok l =>
      rw [he] at h
      simp only [Except.map, Except.ok.injEq] at h
      exact ⟨l, rfl, h.symm, evaluateContacts_mem he⟩
  · intro db campaign l h
    unfold resolveTargetContacts at h
    cases hs : campaign.segmentId with
    | some sid =>
      rw [hs] at h
      dsimp only at h
      cases hfind : db.segments.find? (fun sg => sg.id = sid) with
      | none =>
        rw [hfind] at h
        exact absurd h (by simp)
      | some segment =>
        rw [hfind] at h
        exact evaluateContacts_mem h
    | none =>
      rw [hs] at h
      dsimp only at h
      cases hic : campaign.inlineCriteria with
      | some criteria =>
        rw [hic] at h
        exact evaluateContacts_mem h
      | none =>
        rw [hic] at h
        dsimp only at h
        cases hls : campaign.legacySegment with
        | some ls =>
          rw [hls] at h
          dsimp only at h
          split at h
          · simp only [Except.ok.injEq] at h
            subst h
            intro c hc
            have hf := List.of_mem_filter hc
            simp only [decide_eq_true_eq] at hf
            exact ⟨hf.1, hf.2.1⟩
          · simp only [Except.ok.injEq] at h
            subst h
            intro c hc
            have hf := List.of_mem_filter hc
            simp only [decide_eq_true_eq] at hf
            exact hf
        | none =>
          rw [hls] at h
          simp only [Except.ok.injEq] at h
          subst h
          intro c hc
          have hf := List.of_mem_filter hc
          simp only [decide_eq_true_eq] at hf
          exact hf

theorem C10_targeting_active_opted_witness :
    contactA.status = "ACTIVE" ∧ contactA.optedIn = true :=
  C10_targeting_active_opted.2.2 dbDraft
    (mkCampaign "c1" "DRAFT" (some emptyCriteria) none) [contactA] rfl contactA
    (List.mem_singleton.mpr rfl)

/-- C8: the click-redirect recording appends at most one log entry per button
(a repeat click on the same button changes nothing at all), sets the message's
first-click timestamp only once, and increments the owning campaign's clicked
counter exactly once per message — on the first click across any button, never
after the first-click timestamp is set. -/
theorem C8_click_tracking :
    (∀ (s : ClickState) (i t t2 : Nat),
        trackClick (trackClick s i t) i t2 = trackClick s i t) ∧
    (∀ (s : ClickState) (i t : Nat),
        s.clickedButtons.any (fun cb => decide (cb.index = i)) = false →
        (trackClick s i t).clickedButtons =
          s.clickedButtons ++ [{ index := i, clickedAt := t }]) ∧
    (∀ (s : ClickState) (i t x : Nat),
        s.clickedAt = some x → (trackClick s i t).clickedAt = some x) ∧
    (∀ (s : ClickState) (i t : Nat),
        s.clickedAt ≠ none → (trackClick s i t).campClicked = s.campClicked) ∧
    (∀ (s : ClickState) (i t : Nat),
        s.campaignId ≠ none → s.clickedAt = none →
        s.clickedButtons.any (fun cb => decide (cb.index = i)) = false →
        (trackClick s i t).campClicked = s.campClicked + 1) ∧
    (∀ (s : ClickState) (i t : Nat),
        (s.clickedButtons.map (fun cb => cb.index)).Nodup →
        ((trackClick s i t).clickedButtons.map (fun cb => cb.index)).Nodup) := by
  refine ⟨?_, ?_, ?_, ?_, ?_, ?_⟩
  · intro s i t t2
    cases h : s.clickedButtons.any (fun cb => decide (cb.index = i)) with
    | true => simp [trackClick, h]
    | false => simp [trackClick, h, List.any_append]
  · intro s i t h
    simp [trackClick, h]
  · intro s i t x hx
    cases h : s.clickedButtons.any (fun cb => decide (cb.index = i)) with
    | true => simp [trackClick, h, hx]
    | false => simp [trackClick, h, hx]
  · intro s i t hx
    cases h : s.clickedButtons.any (fun cb => decide (cb.index = i)) with
    | true => simp [trackClick, h]
    | false => simp [trackClick, h, hx]
  · intro s i t hcid hx h
    simp [trackClick, h, hx, hcid]
  · intro s i t hnd
    cases h : s.clickedButtons.any (fun cb => decide (cb.index = i)) with
    | true => simpa [trackClick, h] using hnd
    | false =>
      simp only [trackClick, h, Bool.false_eq_true, if_false, List.map_append,
        List.map_cons, List.map_nil]
      rw [List.nodup_append]
      refine ⟨hnd, List.nodup_singleton i, ?_⟩
      intro a ha hb
      rw [List.mem_singleton] at hb
      subst hb
      rcases List.mem_map.mp ha with ⟨cb, hcb, hidx⟩
      have hni := List.any_eq_false.mp h cb hcb
      simp only [decide_eq_true_eq] at hni
      exact hni hidx

theorem C8_click_tracking_witness :
    trackClick (trackClick ⟨[], none, some "c1", 0⟩ 0 5) 0 9 =
      trackClick ⟨[], none, some "c1", 0⟩ 0 5 ∧
    (trackClick ⟨[], none, some "c1", 0⟩ 0 5).clickedButtons =
      [{ index := 0, clickedAt := 5 }] ∧
    (trackClick ⟨[⟨0, 5⟩], some 5, some "c1", 1⟩ 1 9).clickedAt = some 5 ∧
    (trackClick ⟨[⟨0, 5⟩], some 5, some "c1", 1⟩ 1 9).campClicked = 1 ∧
    (trackClick ⟨[], none, some "c1", 0⟩ 0 5).campClicked = 0 + 1 :=
  ⟨C8_click_tracking.1 _ 0 5 9,
   C8_click_tracking.2.1 _ 0 5 (by decide),
   C8_click_tracking.2.2.1 _ 1 9 5 rfl,
   C8_click_tracking.2.2.2.1 _ 1 9 (by decide),
   C8_click_tracking.2.2.2.2.1 _ 0 5 (by decide) rfl (by decide)⟩

theorem tagEvolved_refl (c : Contact) : tagEvolved c c :=
  ⟨rfl, rfl, rfl, fun _ ht => ht⟩

theorem tagEvolved_trans {a b c : Contact} (h1 : tagEvolved a b)
    (h2 : tagEvolved b c) : tagEvolved a c :=
  ⟨h2.1.trans h1.1, h2.2.1.trans h1.2.1, h2.2.2.1.trans h1.2.2.1,
   fun t ht => h2.2.2.2 t (h1.2.2.2 t ht)⟩

theorem getContact_id {db : DB} {cid : String} {c : Contact}
    (h : getContact db cid = some c) : c.id = cid := by
  have := List.find?_some h
  simpa using this

theorem getContact_mem {db : DB} {cid : String} {c : Contact}
    (h : getContact db cid = some c) : c ∈ db.contacts :=
  List.mem_of_find?_eq_some h

theorem find?_map_id_preserving (p : Contact → Bool) (f : Contact → Contact)
    (hf : ∀ c, p (f c) = p c) :
    ∀ l : List Contact, (l.map f).find? p = (l.find? p).map f
  | [] => rfl
  | c :: rest => by
    rw [List.map_cons]
    cases hp : p c with
    | true => simp [List.find?_cons, hf c, hp]
    | false => simp [List.find?_cons, hf c, hp, find?_map_id_preserving p f hf rest]

theorem getContact_pushTag (db : DB) (c0 tagName cid : String) :
    getContact (pushTagToContact db c0 tagName) cid =
      (getContact db cid).map (fun c =>
        if c.id = c0 then { c with tags := c.tags ++ [tagName] } else c) := by
  unfold getContact pushTagToContact
  dsimp only
  exact find?_map_id_preserving _ _
    (fun c => by by_cases h : c.id = c0 <;> simp [h]) db.contacts

theorem evolve_pushTag {db : DB} {cid : String} {c : Contact}
    (h : getContact db cid = some c) (c0 tagName : String) :
    ∃ c2, getContact (pushTagToContact db c0 tagName) cid = some c2 ∧
      tagEvolved c c2 ∧ (c.id = c0 → tagName ∈ c2.tags) := by
  rw [getContact_pushTag db c0 tagName cid, h]
  by_cases hid : c.id = c0
  · refine ⟨{ c with tags := c.tags ++ [tagName] }, ?_, ?_, ?_⟩
    · simp [hid]
    · exact ⟨rfl, rfl, rfl, fun t ht => by simp [ht]⟩
    · intro _
      simp
  · exact ⟨c, by simp [hid], tagEvolved_refl c, fun hc => absurd hc hid⟩

theorem tagExistingContacts_evolve (tagName : String) :
    ∀ (l : List Contact) (db : DB) (cid : String) (c : Contact),
      getContact db cid = some c →
      ∃ c2, getContact (tagExistingContacts db l tagName) cid = some c2 ∧
        tagEvolved c c2
  | [], db, cid, c, h => ⟨c, h, tagEvolved_refl c⟩
  | ec :: rest, db, cid, c, h => by
    rw [show tagExistingContacts db (ec :: rest) tagName =
      tagExistingContacts
        (if ec.tags.contains tagName then db
         else pushTagToContact db ec.id tagName) rest tagName from rfl]
    by_cases htag : ec.tags.contains tagName = true
    · rw [if_pos htag]
      exact tagExistingContacts_evolve tagName rest db cid c h
    · rw [if_neg htag]
      obtain ⟨c1, hc1, hev1, -⟩ := evolve_pushTag h ec.id tagName
      obtain ⟨c2, hc2, hev2⟩ := tagExistingContacts_evolve tagName rest _ cid c1 hc1
      exact ⟨c2, hc2, tagEvolved_trans hev1 hev2⟩

theorem tagNewContacts_evolve (tagName : String) :
    ∀ (ids : List String) (db : DB) (acc : Nat) (cid : String) (c : Contact),
      getContact db cid = some c →
      ∃ c2, getContact (ids.foldl (fun (acc : DB × Nat) contactId =>
          match acc.1.contacts.find? (fun x => x.id = contactId) with
          | some ct =>
            if ct.tags.contains tagName then acc
            else (pushTagToContact acc.1 contactId tagName, acc.2 + 1)
          | none => acc) (db, acc)).1 cid = some c2 ∧ tagEvolved c c2
  | [], db, acc, cid, c, h => ⟨c, h, tagEvolved_refl c⟩
  | i :: rest, db, acc, cid, c, h => by
    rw [List.foldl_cons]
    cases hfind : db.contacts.find? (fun x => x.id = i) with
    | none =>
      simp only [hfind]
      exact tagNewContacts_evolve tagName rest db acc cid c h
    | some ct =>
      simp only [hfind]
      by_cases htag : ct.tags.contains tagName = true
      · rw [if_pos htag]
        exact tagNewContacts_evolve tagName rest db acc cid c h
      · rw [if_neg htag]
        obtain ⟨c1, hc1, hev1, -⟩ := evolve_pushTag h i tagName
        obtain ⟨c2, hc2, hev2⟩ := tagNewContacts_evolve tagName rest _ _ cid c1 hc1
        exact ⟨c2, hc2, tagEvolved_trans hev1 hev2⟩

theorem getContact_self :
    ∀ (l : List Contact), (l.map (fun c => c.id)).Nodup →
      ∀ {c : Contact}, c ∈ l → l.find? (fun x => x.id = c.id) = some c
  | [], _, _, hc => absurd hc (List.not_mem_nil _)
  | a :: rest, hnd, c, hc => by
    rw [List.map_cons, List.nodup_cons] at hnd
    rcases List.mem_cons.mp hc with h | h
    · subst h
      simp [List.find?_cons]
    · have hne : ¬ a.id = c.id := by
        intro he
        exact hnd.1 (he ▸ List.mem_map.mpr ⟨c, h, rfl⟩)
      rw [List.find?_cons]
      simp only [hne, decide_eq_true_eq, if_false, decide_False]
      exact getContact_self rest hnd.2 h

theorem tagExistingContacts_tags (tagName : String) :
    ∀ (l : List Contact) (db : DB),
      (∀ ec ∈ l, ∃ c, getContact db ec.id = some c ∧ tagEvolved ec c) →
      ∀ ec ∈ l, ∃ c2,
        getContact (tagExistingContacts db l tagName) ec.id = some c2 ∧
          tagEvolved ec c2 ∧ tagName ∈ c2.tags
  | [], _, _, _, hec => absurd hec (List.not_mem_nil _)
  | e :: rest, db, hinv, ec, hec => by
    rw [show tagExistingContacts db (e :: rest) tagName =
      tagExistingContacts
        (if e.tags.contains tagName then db
         else pushTagToContact db e.id tagName) rest tagName from rfl]
    have hstep : ∀ {cid : String} {c : Contact}, getContact db cid = some c →
        ∃ c1, getContact (if e.tags.contains tagName then db
            else pushTagToContact db e.id tagName) cid = some c1 ∧
          tagEvolved c c1 ∧
          (c.id = e.id → ¬ e.tags.contains tagName = true → tagName ∈ c1.tags) := by
      intro cid c hco
      by_cases htag : e.tags.contains tagName = true
      · rw [if_pos htag]
        exact ⟨c, hco, tagEvolved_refl c, fun _ hn => absurd htag hn⟩
      · rw [if_neg htag]
        obtain ⟨c1, hc1, hev, htg⟩ := evolve_pushTag hco e.id tagName
        exact ⟨c1, hc1, hev, fun hid _ => htg hid⟩
    rcases List.mem_cons.mp hec with h | h
    · subst h
      obtain ⟨c, hco, hev0⟩ := hinv ec (List.mem_cons_self _ _)
      obtain ⟨c1, hc1, hev1, htg1⟩ := hstep hco
      obtain ⟨c2, hc2, hev2⟩ := tagExistingContacts_evolve tagName rest _ ec.id c1 hc1
      refine ⟨c2, hc2, tagEvolved_trans hev0 (tagEvolved_trans hev1 hev2), ?_⟩
      by_cases htag : ec.tags.contains tagName = true
      · have hin : tagName ∈ c.tags :=
          hev0.2.2.2 tagName (List.mem_of_elem_eq_true htag)
        exact hev2.2.2.2 tagName (hev1.2.2.2 tagName hin)
      · have hid : c.id = ec.id := getContact_id hco
        exact hev2.2.2.2 tagName (htg1 hid htag)
    · -- ec in the tail: reuse the invariant transported through the head step
      refine tagExistingContacts_tags tagName rest _ ?_ ec h
      intro ec2 hec2
      obtain ⟨c, hco, hev0⟩ := hinv ec2 (List.mem_cons_of_mem _ hec2)
      obtain ⟨c1, hc1, hev1, -⟩ := hstep hco
      exact ⟨c1, hc1, tagEvolved_trans hev0 hev1⟩

theorem tagExistingContacts_segments (tagName : String) :
    ∀ (l : List Contact) (db : DB),
      (tagExistingContacts db l tagName).segments = db.segments
  | [], _ => rfl
  | e :: rest, db => by
    rw [show tagExistingContacts db (e :: rest) tagName =
      tagExistingContacts
        (if e.tags.contains tagName then db
         else pushTagToContact db e.id tagName) rest tagName from rfl]
    rw [tagExistingContacts_segments tagName rest]
    by_cases htag : e.tags.contains tagName = true
    · rw [if_pos htag]
    · rw [if_neg htag]
      rfl

theorem tagNewContacts_segments (tagName : String) :
    ∀ (ids : List String) (db : DB) (acc : Nat),
      ((ids.foldl (fun (acc : DB × Nat) contactId =>
          match acc.1.contacts.find? (fun x => x.id = contactId) with
          | some ct =>
            if ct.tags.contains tagName then acc
            else (pushTagToContact acc.1 contactId tagName, acc.2 + 1)
          | none => acc) (db, acc)).1).segments = db.segments
  | [], _, _ => rfl
  | i :: rest, db, acc => by
    rw [List.foldl_cons]
    cases hfind : db.contacts.find? (fun x => x.id = i) with
    | none =>
      simp only [hfind]
      exact tagNewContacts_segments tagName rest db acc
    | some ct =>
      simp only [hfind]
      by_cases htag : ct.tags.contains tagName = true
      · rw [if_pos htag]
        exact tagNewContacts_segments tagName rest db acc
      · rw [if_neg htag]
        rw [tagNewContacts_segments tagName rest _ _]
        rfl

theorem find?_map_id_preserving_seg (p : SegmentRow → Bool) (f : SegmentRow → SegmentRow)
    (hf : ∀ sg, p (f sg) = p sg) :
    ∀ l : List SegmentRow, (l.map f).find? p = (l.find? p).map f
  | [] => rfl
  | sg :: rest => by
    rw [List.map_cons]
    cases hp : p sg with
    | true => simp [List.find?_cons, hf sg, hp]
    | false => simp [List.find?_cons, hf sg, hp, find?_map_id_preserving_seg p f hf rest]

theorem updateSegmentRow_contacts (db : DB) (sid : String) (f : SegmentRow → SegmentRow) :
    (updateSegmentRow db sid f).contacts = db.contacts := rfl

theorem getSegment_update (db : DB) (sid : String) (f : SegmentRow → SegmentRow)
    (hf : ∀ sg, (f sg).id = sg.id) :
    getSegment (updateSegmentRow db sid f) sid =
      (getSegment db sid).map (fun sg => if sg.id = sid then f sg else sg) := by
  unfold getSegment updateSegmentRow
  dsimp only
  exact find?_map_id_preserving_seg _ _
    (fun sg => by by_cases h : sg.id = sid <;> simp [h, hf sg]) db.segments

theorem evaluateContacts_tagOnly (cs : List Contact) (tag : String) :
    evaluateContacts cs (tagOnlyCriteria tag) =
      .ok (cs.filter (fun c => Cond.holds
        (Cond.andC [activeOptedCond,
          Cond.test "tags" (FieldTest.hasv (.scalar (.str tag)))]) c)) := rfl

theorem evaluateCount_tagOnly (cs : List Contact) (tag : String) :
    evaluateCount cs (tagOnlyCriteria tag) =
      .ok ((cs.filter (fun c => Cond.holds
        (Cond.andC [activeOptedCond,
          Cond.test "tags" (FieldTest.hasv (.scalar (.str tag)))]) c)).length) := rfl

theorem holds_tagOnly {c : Contact} {tag : String} (h1 : c.status = "ACTIVE")
    (h2 : c.optedIn = true) (h3 : tag ∈ c.tags) :
    Cond.holds (Cond.andC [activeOptedCond,
      Cond.test "tags" (FieldTest.hasv (.scalar (.str tag)))]) c = true := by
  simp [Cond.holds, Cond.holdsAll, activeOptedCond, evalFieldTest, getField, h1, h2]
  exact h3

/-- C9 (amended): when the stored criteria have at least one top-level non-tag
rule and no top-level rule for the segment's own synthetic tag, add-contacts
first tags every contact matching the old criteria, then replaces the criteria
with the single has-tag rule and sets the type to STATIC, and every contact of
the old evaluated membership is still in the evaluated membership of the
converted segment. (When the old rules are tag-has rules or sit only in nested
groups, the pre-tagging phase is skipped and members can be dropped.) -/
theorem C9_static_conversion (db : DB) (segId : String) (contactIds : List String)
    (now : Nat) (segment : SegmentRow) (existing : List Contact)
    (hne : contactIds.isEmpty = false)
    (hfind : db.segments.find? (fun sg => sg.id = segId) = some segment)
    (htr : segment.criteria.rules.any (fun r =>
        decide (r.field = "tags" ∧ r.op = "has" ∧
          r.value = .scalar (.str (segTagName segment.name)))) = false)
    (hnr : segment.criteria.rules.any (fun r =>
        decide (¬(r.field = "tags" ∧ r.op = "has"))) = true)
    (heval : evaluateContacts db.contacts segment.criteria = .ok existing)
    (hnd : (db.contacts.map (fun c => c.id)).Nodup) :
    (∃ res, (addContactsToSegment db segId contactIds now).2 = .ok res) ∧
    (∃ seg2, getSegment (addContactsToSegment db segId contactIds now).1 segId =
        some seg2 ∧
      seg2.criteria = tagOnlyCriteria (segTagName segment.name) ∧
      seg2.type = "STATIC") ∧
    (∀ c ∈ existing, ∃ l c2,
        evaluateContacts (addContactsToSegment db segId contactIds now).1.contacts
          (tagOnlyCriteria (segTagName segment.name)) = .ok l ∧
        c2 ∈ l ∧ c2.id = c.id) := by
  have hsid : segment.id = segId := by
    have := List.find?_some hfind
    simpa using this
  have hout :
      addContactsToSegment db segId contactIds now =
        (updateSegmentRow
          (updateSegmentRow
            (tagNewContacts (tagExistingContacts db existing (segTagName segment.name))
              contactIds (segTagName segment.name)).1 segId
            (fun sg => { sg with
              criteria := tagOnlyCriteria (segTagName segment.name), type := "STATIC" }))
          segId
          (fun sg => { sg with
            contactCount :=
              tagMembershipCount
                (tagNewContacts (tagExistingContacts db existing (segTagName segment.name))
                  contactIds (segTagName segment.name)).1.contacts
                (segTagName segment.name),
            lastEvaluatedAt := some now }),
         .ok ((tagNewContacts (tagExistingContacts db existing (segTagName segment.name))
            contactIds (segTagName segment.name)).2,
           tagMembershipCount
             (tagNewContacts (tagExistingContacts db existing (segTagName segment.name))
               contactIds (segTagName segment.name)).1.contacts
             (segTagName segment.name))) := by
    unfold addContactsToSegment
    rw [if_neg (by simp [hne]), hfind]
    dsimp only
    rw [htr, hnr]
    simp only [Bool.not_false, Bool.true_and, if_true, heval]
    rw [evaluateCount_tagOnly]
    dsimp only
    rfl
  refine ⟨?_, ?_, ?_⟩
  · exact ⟨_, by rw [hout]⟩
  · rw [hout]
    have hsegs2 : (tagNewContacts (tagExistingContacts db existing (segTagName segment.name))
        contactIds (segTagName segment.name)).1.segments = db.segments := by
      have h1 := tagNewContacts_segments (segTagName segment.name) contactIds
        (tagExistingContacts db existing (segTagName segment.name)) 0
      exact h1.trans (tagExistingContacts_segments (segTagName segment.name) existing db)
    have hgs1 : getSegment (tagNewContacts (tagExistingContacts db existing (segTagName segment.name))
        contactIds (segTagName segment.name)).1 segId = some segment := by
      unfold getSegment
      rw [hsegs2]
      exact hfind
    rw [getSegment_update _ segId
          (fun sg => { sg with
            contactCount :=
              tagMembershipCount
                (tagNewContacts (tagExistingContacts db existing (segTagName segment.name))
                  contactIds (segTagName segment.name)).1.contacts
                (segTagName segment.name),
            lastEvaluatedAt := some now })
          (fun sg => rfl),
        getSegment_update _ segId
          (fun sg => { sg with
            criteria := tagOnlyCriteria (segTagName segment.name), type := "STATIC" })
          (fun sg => rfl),
        hgs1]
    simp [hsid]
  · intro c hc
    have hact := evaluateContacts_mem heval c hc
    have hsubdb : ∀ x ∈ existing, x ∈ db.contacts := by
      intro x hx
      unfold evaluateContacts at heval
      cases hw : buildWhereClause segment.criteria with
      | error e =>
        rw [hw] at heval
        exact absurd heval (by simp)
      | ok w =>
        rw [hw] at heval
        simp only [Except.ok.injEq] at heval
        subst heval
        exact List.mem_of_mem_filter hx
    have hinv : ∀ ec ∈ existing, ∃ c', getContact db ec.id = some c' ∧ tagEvolved ec c' :=
      fun ec hec => ⟨ec, getContact_self db.contacts hnd (hsubdb ec hec), tagEvolved_refl ec⟩
    obtain ⟨c2, hc2, hev2, htag2⟩ :=
      tagExistingContacts_tags (segTagName segment.name) existing db hinv c hc
    obtain ⟨c3, hc3, hev3⟩ :=
      tagNewContacts_evolve (segTagName segment.name) contactIds _ 0 c.id c2 hc2
    have hevc : tagEvolved c c3 := tagEvolved_trans hev2 hev3
    have hmem3 : c3 ∈ (tagNewContacts (tagExistingContacts db existing (segTagName segment.name))
        contactIds (segTagName segment.name)).1.contacts := getContact_mem hc3
    rw [hout]
    refine ⟨_, c3, evaluateContacts_tagOnly _ _, ?_, hevc.1⟩
    refine List.mem_filter.mpr ⟨hmem3, ?_⟩
    exact holds_tagOnly (hevc.2.1.trans hact.1) (hevc.2.2.1.trans hact.2)
      (hev3.2.2.2 _ htag2)

theorem C9_static_conversion_witness :
    ∃ l c2, evaluateContacts (addContactsToSegment dbSegTop "s2" ["ct2"] 9).1.contacts
        (tagOnlyCriteria (segTagName segTop.name)) = .ok l ∧ c2 ∈ l ∧
      c2.id = contactA.id :=
  (C9_static_conversion dbSegTop "s2" ["ct2"] 9 segTop [contactA]
    rfl rfl (by decide) (by decide) rfl (by decide)).2.2
    contactA (List.mem_singleton.mpr rfl)

/-- C9 is false as stated: when the dynamic rules sit only in a nested group,
the pre-tagging phase is skipped (the top-level rule scan sees no non-tag
rule), so after the conversion to the tag-only STATIC criteria the previously
matching contact ct1 has dropped out of the evaluated membership. -/
theorem C9_counterexample :
    (evaluateContacts dbSegNested.contacts segNested.criteria).map
        (fun l => l.map (fun c => c.id)) = .ok ["ct1"] ∧
    (addContactsToSegment dbSegNested "s1" ["ct2"] 5).2 = .ok (1, 1) ∧
    (addContactsToSegment dbSegNested "s1" ["ct2"] 5).1.segments.map
        (fun sg => sg.type) = ["STATIC"] ∧
    (addContactsToSegment dbSegNested "s1" ["ct2"] 5).1.segments.map
        (fun sg => sg.criteria.rules.map (fun r => r.field)) = [["tags"]] ∧
    (evaluateContacts (addContactsToSegment dbSegNested "s1" ["ct2"] 5).1.contacts
        (tagOnlyCriteria (segTagName segNested.name))).map
        (fun l => l.map (fun c => c.id)) = .ok ["ct2"] ∧
    (addContactsToSegment dbSegNested "s1" ["ct2"] 5).1.contacts.map
        (fun c => c.tags) = [[], ["seg_zone"]] :=
  ⟨rfl, rfl, rfl, rfl, rfl, rfl⟩
